import Mathlib

/-!
Verification development for the taxbencher repository, covering the
Bioboxes format converter (src/bin/taxpasta_to_bioboxes.py) and the
Bioboxes format validator (src/bin/validate_bioboxes.py).

Modelling conventions:
* Python strings are Lean `String`s; the handful of string primitives the
  scripts use (str.strip, str.split on a single-character separator,
  str.startswith, "|".join) are modelled by executable functions on the
  underlying character lists.
* Python floats are modelled as exact rationals (ℚ).  The only place the
  scripts rely on the decimal width of a float is the "%.6f" formatting of
  percentages; this is modelled exactly by `round6` (round half up to a
  multiple of 10⁻⁶) together with the decimal printer `format6`.
* `int(s)` / `float(s)` are modelled by `pyInt?` / `pyFloat?` returning
  `Option`; the modelled grammar covers optional surrounding whitespace,
  an optional sign, and plain decimal forms (the forms the scripts
  themselves produce; exotic Python forms such as exponents, inf/nan or
  underscore separators are not needed by any claim).
* The pandas data frame read by the converter is modelled as `TpInput`:
  a flag recording whether the two required columns are present, plus the
  list of rows, each row holding an optional identifier string (NaN = none)
  and an optional numeric count (NaN / non-numeric = none).
* The ete3 NCBITaxa dependency is modelled by the abstract oracle `Ncbi`:
  `fails` abstracts "some call in the try-block raised", `rank`/`lineage`/
  `name` abstract `get_rank`/`get_lineage`/`get_taxid_translator` (a `none`
  result models a missing dictionary entry / a `None` lineage).
* File I/O is modelled at the content level: the validator consumes the
  list of lines of the file (the result of `readlines`), the converter
  produces the list of lines it writes.  The `sys.exit(1)` on missing
  required columns is an `Except.error`; diagnostics of the validator are
  the inductive type `Diag`, with `render` giving the exact message string
  the script interpolates (numeric interpolations that no claim depends on
  are rendered in a simplified way).
-/

namespace Taxbencher

/-- Whitespace for the model of Python str.strip. -/
def isWS (c : Char) : Bool :=
  c = ' ' ∨ c = '\t' ∨ c = '\n' ∨ c = '\r'

/-- Model of Python str.strip on character lists. -/
def pyStripL (l : List Char) : List Char :=
  ((l.dropWhile isWS).reverse.dropWhile isWS).reverse

/-- Model of Python str.strip. -/
def pyStrip (s : String) : String :=
  String.mk (pyStripL s.data)

/-- Model of Python str.split with a one-character separator, on lists. -/
def splitCharL (sep : Char) : List Char → List (List Char)
  | [] => [[]]
  | c :: t =>
    match splitCharL sep t with
    | [] => [[]]
    | h :: rt => if c = sep then [] :: h :: rt else (c :: h) :: rt

/-- Model of Python str.split with a one-character separator. -/
def splitChar (sep : Char) (s : String) : List String :=
  (splitCharL sep s.data).map String.mk

/-- Model of Python "sep".join on character lists. -/
def joinSepL (sep : Char) : List (List Char) → List Char
  | [] => []
  | [a] => a
  | a :: b :: t => a ++ sep :: joinSepL sep (b :: t)

/-- Model of Python "sep".join. -/
def joinSep (sep : Char) (parts : List String) : String :=
  String.mk (joinSepL sep (parts.map String.data))

/-- Model of Python str.startswith on character lists. -/
def startsWithL : List Char → List Char → Bool
  | [], _ => true
  | _ :: _, [] => false
  | p :: pt, c :: ct => p = c && startsWithL pt ct

/-- Model of Python str.startswith. -/
def pyStartsWith (p s : String) : Bool :=
  startsWithL p.data s.data

/-- Drop the first n characters of a string. -/
def strDrop (n : ℕ) (s : String) : String :=
  String.mk (s.data.drop n)

/-- A word character in the sense of the regex \w (ASCII model). -/
def isWordChar (c : Char) : Bool :=
  c.isAlphanum || c = '_'

/-- The character of a decimal digit. -/
def digitChar (d : ℕ) : Char :=
  Char.ofNat (48 + d)

/-- The numeric value of a decimal digit character. -/
def charVal (c : Char) : ℕ :=
  c.toNat - 48

/-- Numeric value of a list of decimal digit characters. -/
def parseNatL (l : List Char) : ℕ :=
  l.foldl (fun a c => 10 * a + charVal c) 0

/-- Parse a nonempty all-digit string as a natural number. -/
def parseNat? (s : String) : Option ℕ :=
  if s.data ≠ [] ∧ s.data.all Char.isDigit then some (parseNatL s.data) else none

/-- Little-endian decimal digits of a natural number, with structural fuel. -/
def natDigitsF : ℕ → ℕ → List ℕ
  | 0, _ => []
  | fuel + 1, n => if n = 0 then [] else n % 10 :: natDigitsF fuel (n / 10)

/-- Little-endian decimal digits of a natural number. -/
def natDigits (n : ℕ) : List ℕ :=
  natDigitsF n n

/-- Model of Python str(n) for a natural number. -/
def strOfNat (n : ℕ) : String :=
  if n = 0 then "0" else String.mk (((natDigits n).map digitChar).reverse)

/-- Model of Python str(i) for an integer. -/
def strOfInt (i : ℤ) : String :=
  if i < 0 then "-" ++ strOfNat i.natAbs else strOfNat i.toNat

/-- Model of Python int(s): optional surrounding whitespace, optional sign,
decimal digits. -/
def pyInt? (s : String) : Option ℤ :=
  let t := pyStrip s
  if startsWithL ['-'] t.data then
    (parseNat? (strDrop 1 t)).map (fun n => -(n : ℤ))
  else if startsWithL ['+'] t.data then
    (parseNat? (strDrop 1 t)).map (fun n => (n : ℤ))
  else
    (parseNat? t).map (fun n => (n : ℤ))

/-- Magnitude part of the model of Python float(s): integer part, optional
fractional part, at least one digit overall. -/
def pyFloatMag (u : String) : Option ℚ :=
  match splitChar '.' u with
  | [a] => (parseNat? a).map (fun n => (n : ℚ))
  | [a, b] =>
    if (a.data ≠ [] ∨ b.data ≠ []) ∧ a.data.all Char.isDigit ∧ b.data.all Char.isDigit then
      some ((parseNatL a.data : ℚ) + (parseNatL b.data : ℚ) / ((10 : ℚ) ^ b.data.length))
    else none
  | _ => none

/-- Model of Python float(s) for the decimal forms the scripts use. -/
def pyFloat? (s : String) : Option ℚ :=
  let t := pyStrip s
  if startsWithL ['-'] t.data then
    (pyFloatMag (strDrop 1 t)).map (fun q => -q)
  else if startsWithL ['+'] t.data then
    pyFloatMag (strDrop 1 t)
  else
    pyFloatMag t

/-- The value denoted by the "%.6f" formatting of a float: round half up to
a multiple of 10⁻⁶. -/
def round6 (x : ℚ) : ℚ :=
  (⌊x * 1000000 + 1 / 2⌋ : ℚ) / 1000000

/-- Decimal printing of a nonnegative multiple of 10⁻⁶ with six digits after
the point, as produced by "%.6f". -/
def format6 (x : ℚ) : String :=
  let k : ℕ := (⌊x * 1000000⌋).toNat
  let frac := strOfNat (k % 1000000)
  strOfNat (k / 1000000) ++ "." ++
    String.mk (List.replicate (6 - frac.data.length) '0' ++ frac.data)

/-! ### The converter (src/bin/taxpasta_to_bioboxes.py) -/

/-- Abstract model of the ete3 NCBITaxa object.  `fails t` models "one of
the lookup calls for t raised an exception"; `rank`, `lineage`, `name`
model `get_rank`, `get_lineage` and `get_taxid_translator`, a `none`
result modelling a missing dictionary entry (resp. a `None` lineage). -/
structure Ncbi where
  fails : ℤ → Bool
  rank : ℤ → Option String
  lineage : ℤ → Option (List ℤ)
  name : ℤ → Option String

/-- The degraded taxonomy result: unknown rank, the identifier echoed back
as its own one-element path. -/
def degradedInfo (taxid : ℤ) : String × List ℤ × List String :=
  ("unknown", [taxid], ["taxid_" ++ strOfInt taxid])

/-- Model of get_taxonomy_info (lines 37-72 of taxpasta_to_bioboxes.py).
The TAXPATH / TAXPATHSN strings are kept as lists here; they are joined
with "|" at serialization time, exactly as the joined strings the source
builds. -/
def get_taxonomy_info (taxid : ℤ) (ncbi : Option Ncbi) : String × List ℤ × List String :=
  match ncbi with
  | none => degradedInfo taxid
  | some o =>
    if o.fails taxid then degradedInfo taxid
    else
      let rank := (o.rank taxid).getD "unknown"
      let lineage := (o.lineage taxid).getD [taxid]
      (rank, lineage, lineage.map (fun tid => (o.name tid).getD ("taxid_" ++ strOfInt tid)))

/-- One row of the taxpasta data frame: `none` models a missing (NaN)
identifier, resp. a missing or non-numeric count. -/
structure Row where
  taxonomy_id : Option String
  count : Option ℚ
deriving DecidableEq

/-- The converter input: whether the required columns are present, and the
rows. -/
structure TpInput where
  hasCols : Bool
  rows : List Row

/-- One emitted Bioboxes taxon record. -/
structure TaxonRecord where
  taxid : ℤ
  rank : String
  taxpath : List ℤ
  taxpathsn : List String
  pct : ℚ
deriving DecidableEq

/-- The set of valid OPAL ranks (line 135). -/
def valid_ranks : List String :=
  ["superkingdom", "phylum", "class", "order", "family", "genus", "species", "strain"]

/-- The fixed rank mapping table (lines 138-142). -/
def rank_mapping : List (String × String) :=
  [("subspecies", "strain"), ("domain", "superkingdom"), ("kingdom", "superkingdom")]

/-- Lookup in the rank mapping table. -/
def lookupMapping (r : String) : Option String :=
  (rank_mapping.find? (fun p => p.1 = r)).map (fun p => p.2)

/-- The rows surviving the dropna / to_numeric / positive-count filter
(lines 110-114). -/
def validRows (rows : List Row) : List (String × ℚ) :=
  rows.filterMap (fun r =>
    match r.taxonomy_id, r.count with
    | some s, some c => if 0 < c then some (s, c) else none
    | _, _ => none)

/-- Sum of the counts of the valid rows (line 120). -/
def totalCount (rows : List Row) : ℚ :=
  ((validRows rows).map Prod.snd).sum

/-- The loop body of the conversion (lines 147-175): parse the identifier,
compute the percentage, resolve taxonomy, filter and map the rank.  The
stored percentage is the value of the "%.6f"-formatted string. -/
def processRow (ncbi : Option Ncbi) (total : ℚ) (p : String × ℚ) : Option TaxonRecord :=
  match pyInt? p.1 with
  | none => none
  | some taxid =>
    let pct : ℚ := if 0 < total then p.2 / total * 100 else 0
    let info := get_taxonomy_info taxid ncbi
    if info.1 ∈ valid_ranks ∨ (lookupMapping info.1).isSome then
      some { taxid := taxid, rank := (lookupMapping info.1).getD info.1,
             taxpath := info.2.1, taxpathsn := info.2.2, pct := round6 pct }
    else none

/-- The records accumulated by the loop, before renormalization. -/
def preResults (ncbi : Option Ncbi) (rows : List Row) : List TaxonRecord :=
  (validRows rows).filterMap (processRow ncbi (totalCount rows))

/-- Sum of the stored percentages of a record list (line 181). -/
def totalPercentage (rs : List TaxonRecord) : ℚ :=
  (rs.map (fun r => r.pct)).sum

/-- The renormalization guard (line 182). -/
def renormNeeded (rs : List TaxonRecord) : Bool :=
  decide (0 < totalPercentage rs ∧ 1 / 100 < |totalPercentage rs - 100|)

/-- Renormalization (lines 180-185): each stored percentage is replaced by
the value of the re-formatted renormalized percentage. -/
def renormalize (rs : List TaxonRecord) : List TaxonRecord :=
  if renormNeeded rs then
    rs.map (fun r => { r with pct := round6 (r.pct / totalPercentage rs * 100) })
  else rs

/-- The final record list written by the converter. -/
def finalResults (ncbi : Option Ncbi) (rows : List Row) : List TaxonRecord :=
  renormalize (preResults ncbi rows)

/-- The default --ranks argument of the converter. -/
def defaultRanksStr : String :=
  "superkingdom|phylum|class|order|family|genus|species|strain"

/-- The column header line (line 198). -/
def columnHeaderLine : String :=
  "@@TAXID\tRANK\tTAXPATH\tTAXPATHSN\tPERCENTAGE"

/-- Serialization of one record (lines 201-208). -/
def serializeRecord (r : TaxonRecord) : String :=
  strOfInt r.taxid ++ "\t" ++ r.rank ++ "\t" ++
    joinSep '|' (r.taxpath.map strOfInt) ++ "\t" ++
    joinSep '|' r.taxpathsn ++ "\t" ++ format6 r.pct

/-- The lines of the output file (lines 190-208). -/
def outputLines (sample version ranksStr db : String) (rs : List TaxonRecord) : List String :=
  ["@SampleID:" ++ sample, "@Version:" ++ version, "@Ranks:" ++ ranksStr,
   "@TaxonomyID:" ++ db, columnHeaderLine] ++ rs.map serializeRecord

/-- Model of convert_taxpasta_to_bioboxes (lines 75-210).  The
`sys.exit(1)` on missing required columns is the error case; otherwise the
function always succeeds and produces the output lines. -/
def convert_taxpasta_to_bioboxes (ncbi : Option Ncbi) (inp : TpInput)
    (sample version ranksStr db : String) : Except String (List String) :=
  if inp.hasCols then
    .ok (outputLines sample version ranksStr db (finalResults ncbi inp.rows))
  else
    .error "Input file must contain taxonomy_id and count columns"

/-! ### The validator (src/bin/validate_bioboxes.py) -/

/-- The diagnostics the validator can produce, one constructor per
`errors.append` site (plus the three early-return messages). -/
inductive Diag where
  | fileEmpty : Diag
  | invalidHeaderFormat (ln : ℕ) (line : String) : Diag
  | missingHeader (name : String) : Diag
  | versionInvalid (v : String) : Diag
  | unexpectedRanks (rs : List String) : Diag
  | unusualTaxonomyId (db : String) : Diag
  | missingColumnHeader : Diag
  | missingColumns (cols : List String) : Diag
  | foundColumns (cols : List String) : Diag
  | noDataRows : Diag
  | insufficientColumns (ln : ℕ) (got : ℕ) : Diag
  | taxidNonPositive (ln : ℕ) (t : String) : Diag
  | taxidNotInt (ln : ℕ) (t : String) : Diag
  | rankNotInHeader (ln : ℕ) (r : String) : Diag
  | taxpathNonInt (ln : ℕ) (part : String) : Diag
  | taxpathMismatch (ln : ℕ) (lastp t : String) : Diag
  | taxpathsnLenMismatch (ln : ℕ) (n m : ℕ) : Diag
  | percentageOutOfRange (ln : ℕ) (p : ℚ) : Diag
  | percentageNotNumber (ln : ℕ) (s : String) : Diag
  | percentageSumOff (total : ℚ) : Diag
  | duplicateTaxids (count : ℕ) : Diag
deriving DecidableEq

/-- A plain decimal rendering for rationals used only inside diagnostic
messages no claim depends on. -/
def ratStr (q : ℚ) : String :=
  strOfInt q.num ++ "/" ++ strOfNat q.den

/-- The message string of a diagnostic, as interpolated by the script
(numeric interpolations that no claim depends on are rendered plainly). -/
def render : Diag → String
  | .fileEmpty => "File is empty"
  | .invalidHeaderFormat ln l =>
      "Line " ++ strOfNat ln ++ ": Invalid header format: " ++ l
  | .missingHeader n => "Missing required header: @" ++ n
  | .versionInvalid v =>
      "Version format invalid: " ++ v ++ " (expected format: X.Y.Z)"
  | .unexpectedRanks rs => "Unexpected rank names: " ++ joinSep ',' rs
  | .unusualTaxonomyId db =>
      "Unusual TaxonomyID: " ++ db ++ " (expected NCBI or GTDB)"
  | .missingColumnHeader => "Missing column header (line starting with @@)"
  | .missingColumns cols => "Missing required columns: " ++ joinSep ',' cols
  | .foundColumns cols => "Found columns: " ++ joinSep ',' cols
  | .noDataRows => "No data rows found"
  | .insufficientColumns ln got =>
      "Line " ++ strOfNat ln ++ ": Insufficient columns (expected 5, got " ++
        strOfNat got ++ ")"
  | .taxidNonPositive ln t =>
      "Line " ++ strOfNat ln ++ ": Invalid TAXID (must be positive): " ++ t
  | .taxidNotInt ln t => "Line " ++ strOfNat ln ++ ": TAXID not an integer: " ++ t
  | .rankNotInHeader ln r =>
      "Line " ++ strOfNat ln ++ ": RANK " ++ r ++ " not in header Ranks"
  | .taxpathNonInt ln part =>
      "Line " ++ strOfNat ln ++ ": TAXPATH contains non-integer: " ++ part
  | .taxpathMismatch ln lastp t =>
      "Line " ++ strOfNat ln ++ ": Last TAXPATH element (" ++ lastp ++
        ") does not match TAXID (" ++ t ++ ")"
  | .taxpathsnLenMismatch ln n m =>
      "Line " ++ strOfNat ln ++ ": TAXPATHSN (" ++ strOfNat n ++
        " elements) does not match TAXPATH (" ++ strOfNat m ++ " elements)"
  | .percentageOutOfRange ln p =>
      "Line " ++ strOfNat ln ++ ": PERCENTAGE out of range [0, 100]: " ++ ratStr p
  | .percentageNotNumber ln s =>
      "Line " ++ strOfNat ln ++ ": PERCENTAGE not a number: " ++ s
  | .percentageSumOff total =>
      "Percentages sum to " ++ ratStr total ++
        "% (expected ~100%). This may be acceptable for some use cases."
  | .duplicateTaxids count =>
      "Found " ++ strOfNat count ++ " duplicate TAXID entries"

/-- The line number a row-level diagnostic refers to. -/
def Diag.lineNo : Diag → Option ℕ
  | .invalidHeaderFormat ln _ => some ln
  | .insufficientColumns ln _ => some ln
  | .taxidNonPositive ln _ => some ln
  | .taxidNotInt ln _ => some ln
  | .rankNotInHeader ln _ => some ln
  | .taxpathNonInt ln _ => some ln
  | .taxpathMismatch ln _ _ => some ln
  | .taxpathsnLenMismatch ln _ _ => some ln
  | .percentageOutOfRange ln _ => some ln
  | .percentageNotNumber ln _ => some ln
  | _ => none

/-- State of the header/data parsing loop (lines 50-80). -/
structure PSt where
  headers : String → Option String
  colHeader : Option String
  inData : Bool
  data : List (ℕ × String)
  errs : List Diag

/-- Initial parse state. -/
def initPSt : PSt :=
  { headers := fun _ => none, colHeader := none, inData := false, data := [], errs := [] }

/-- Model of re.match applied to a stripped header line starting with "@"
(line 64): the key is a maximal nonempty run of word characters after the
"@", followed by ":" and a nonempty value, which is stripped. -/
def parseHeaderLine (l : String) : Option (String × String) :=
  let rest := strDrop 1 l
  let key := String.mk (rest.data.takeWhile isWordChar)
  let after := String.mk (rest.data.dropWhile isWordChar)
  if key.data ≠ [] ∧ startsWithL [':'] after.data ∧ (strDrop 1 after).data ≠ [] then
    some (key, pyStrip (strDrop 1 after))
  else none

/-- Dictionary update for the headers mapping. -/
def updateH (h : String → Option String) (k v : String) : String → Option String :=
  fun k2 => if k2 = k then some v else h k2

/-- One iteration of the parsing loop (lines 55-80). -/
def parseStep (st : PSt) (p : ℕ × String) : PSt :=
  let l := pyStrip p.2
  if l = "" then st
  else if pyStartsWith "@@" l then
    { st with colHeader := some (pyStrip (strDrop 2 l)), inData := true }
  else if pyStartsWith "@" l then
    match parseHeaderLine l with
    | some kv => { st with headers := updateH st.headers kv.1 kv.2 }
    | none => { st with errs := st.errs ++ [Diag.invalidHeaderFormat p.1 l] }
  else if st.inData then
    { st with data := st.data ++ [(p.1, l)] }
  else st

/-- The whole parsing loop, with 1-based line numbers. -/
def parseAll (lines : List String) : PSt :=
  (List.enumFrom 1 lines).foldl parseStep initPSt

/-- Required-header check (lines 83-86). -/
def requiredHeaderDiags (h : String → Option String) : List Diag :=
  (["SampleID", "Version", "Ranks"].filter (fun k => (h k).isNone)).map Diag.missingHeader

/-- Prefix match of the version regex \d+\.\d+\.\d+ (line 94). -/
def versionOkL (l : List Char) : Bool :=
  let d1 := l.takeWhile Char.isDigit
  let r1 := l.dropWhile Char.isDigit
  match r1 with
  | '.' :: r2 =>
    let d2 := r2.takeWhile Char.isDigit
    let r3 := r2.dropWhile Char.isDigit
    match r3 with
    | '.' :: r4 => d1 ≠ [] && d2 ≠ [] && (r4.takeWhile Char.isDigit) ≠ []
    | _ => false
  | _ => false

/-- Version header check (lines 92-96). -/
def versionDiags (h : String → Option String) : List Diag :=
  match h "Version" with
  | none => []
  | some v => if versionOkL v.data then [] else [Diag.versionInvalid v]

/-- The recognized rank names of the validator (lines 106-109). -/
def expected_ranks : List String :=
  ["superkingdom", "kingdom", "phylum", "class", "order",
   "family", "genus", "species", "strain"]

/-- Ranks header check (lines 98-112). -/
def ranksHeaderDiags (h : String → Option String) : List Diag :=
  match h "Ranks" with
  | none => []
  | some rv =>
    let unexpected := (splitChar '|' rv).filter
      (fun r => ¬ (r ∈ expected_ranks) ∧ ¬ pyStartsWith "no_rank" r)
    if unexpected = [] then [] else [Diag.unexpectedRanks unexpected]

/-- TaxonomyID header check (lines 114-119). -/
def taxdbDiags (h : String → Option String) : List Diag :=
  match h "TaxonomyID" with
  | none => []
  | some db => if db = "NCBI" ∨ db = "GTDB" then [] else [Diag.unusualTaxonomyId db]

/-- The required data columns (line 127). -/
def expected_columns : List String :=
  ["TAXID", "RANK", "TAXPATH", "TAXPATHSN", "PERCENTAGE"]

/-- Column header content check (lines 127-135). -/
def columnDiags (ch : String) : List Diag :=
  let found := (splitChar '\t' ch).map pyStrip
  let missing := expected_columns.filter (fun c => ¬ c ∈ found)
  if missing = [] then [] else [Diag.missingColumns missing, Diag.foundColumns found]

/-- TAXID field check of one data row (lines 156-162). -/
def taxidDiags (ln : ℕ) (t : String) : List Diag :=
  match pyInt? t with
  | some v => if v ≤ 0 then [Diag.taxidNonPositive ln t] else []
  | none => [Diag.taxidNotInt ln t]

/-- RANK field check of one data row (lines 165-168). -/
def rankDiags (ranksVal : Option String) (ln : ℕ) (r : String) : List Diag :=
  match ranksVal with
  | none => []
  | some v =>
    if r ∈ splitChar '|' v ∨ r = "no_rank" ∨ r = "unknown" then []
    else [Diag.rankNotInHeader ln r]

/-- TAXPATH field check of one data row (lines 171-189): first non-integer
component, then the final-element／TAXID agreement check, which is silent
when either side fails to parse. -/
def taxpathDiags (ln : ℕ) (t tp : String) : List Diag :=
  if tp = "" then []
  else
    let parts := splitChar '|' tp
    let nonIntD :=
      match parts.find? (fun q => (pyInt? q).isNone) with
      | some bad => [Diag.taxpathNonInt ln bad]
      | none => []
    let misD :=
      if t = "" then []
      else
        match parts.getLast? with
        | none => []
        | some lastp =>
          match pyInt? lastp, pyInt? t with
          | some a, some b => if a ≠ b then [Diag.taxpathMismatch ln lastp t] else []
          | _, _ => []
    nonIntD ++ misD

/-- TAXPATHSN length check of one data row (lines 192-199). -/
def tpsnDiags (ln : ℕ) (tp tpsn : String) : List Diag :=
  if tpsn ≠ "" ∧ tp ≠ "" then
    let n := (splitChar '|' tpsn).length
    let m := (splitChar '|' tp).length
    if n ≠ m then [Diag.taxpathsnLenMismatch ln n m] else []
  else []

/-- PERCENTAGE field check of one data row (lines 202-208). -/
def pctDiags (ln : ℕ) (pc : String) : List Diag :=
  match pyFloat? pc with
  | some v => if v < 0 ∨ 100 < v then [Diag.percentageOutOfRange ln v] else []
  | none => [Diag.percentageNotNumber ln pc]

/-- All diagnostics of one data row (lines 146-208). -/
def rowDiags (ranksVal : Option String) (p : ℕ × String) : List Diag :=
  match splitChar '\t' p.2 with
  | t :: r :: tp :: tpsn :: pc :: _ =>
    taxidDiags p.1 t ++ rankDiags ranksVal p.1 r ++ taxpathDiags p.1 t tp ++
      tpsnDiags p.1 tp tpsn ++ pctDiags p.1 pc
  | fs => [Diag.insufficientColumns p.1 fs.length]

/-- The TAXID collected from a data row (appended whenever int() succeeds,
line 160). -/
def rowTaxid? (p : ℕ × String) : Option ℤ :=
  match splitChar '\t' p.2 with
  | t :: _ :: _ :: _ :: _ :: _ => pyInt? t
  | _ => none

/-- The percentage collected from a data row (appended whenever float()
succeeds, line 206). -/
def rowPct? (p : ℕ × String) : Option ℚ :=
  match splitChar '\t' p.2 with
  | _ :: _ :: _ :: _ :: pc :: _ => pyFloat? pc
  | _ => none

/-- Percentage sum check (lines 211-222). -/
def sumDiags (pcts : List ℚ) : List Diag :=
  if pcts = [] then []
  else if 1 < |pcts.sum - 100| then [Diag.percentageSumOff pcts.sum] else []

/-- Duplicate TAXID check (lines 224-229). -/
def dupDiags (tids : List ℤ) : List Diag :=
  if tids = [] then []
  else
    let d := tids.length - tids.dedup.length
    if 0 < d then [Diag.duplicateTaxids d] else []

/-- All diagnostics of the data section (lines 137-229). -/
def dataDiags (ranksVal : Option String) (data : List (ℕ × String)) : List Diag :=
  if data = [] then [Diag.noDataRows]
  else
    (data.map (rowDiags ranksVal)).flatten ++
      sumDiags (data.filterMap rowPct?) ++ dupDiags (data.filterMap rowTaxid?)

/-- All header-block diagnostics (lines 83-119). -/
def headerDiags (h : String → Option String) : List Diag :=
  requiredHeaderDiags h ++ versionDiags h ++ ranksHeaderDiags h ++ taxdbDiags h

/-- Model of validate_bioboxes (lines 21-232) at the file-content level:
the input is the list of lines of the file.  Returns (is_valid, errors);
the summary-statistics dictionary carries no information any claim needs
and is omitted.  The empty-file early return is line 45; the fatal
missing-column-header early return is lines 122-124. -/
def validate_bioboxes (lines : List String) : Bool × List Diag :=
  if lines = [] then (false, [Diag.fileEmpty])
  else
    let st := parseAll lines
    let e0 := st.errs ++ headerDiags st.headers
    match st.colHeader with
    | none => (false, e0 ++ [Diag.missingColumnHeader])
    | some ch =>
      let es := e0 ++ columnDiags ch ++ dataDiags (st.headers "Ranks") st.data
      (es.isEmpty, es)

/-- Model of the exit code of the validator command-line program
(lines 286-296): 0 when valid, otherwise 1 exactly when --strict was
given. -/
def validatorExit (strict isValid : Bool) : ℕ :=
  if isValid then 0 else if strict then 1 else 0

/-- The list `taxids` collected by the validator across the data rows
(appended whenever the TAXID field of a row with at least five fields
parses as an integer, line 160). -/
def collectedTaxids (lines : List String) : List ℤ :=
  (parseAll lines).data.filterMap rowTaxid?

/-- Recognizes the duplicate-identifier diagnostic. -/
def isDupDiag : Diag → Bool
  | .duplicateTaxids _ => true
  | _ => false

/-- The header mapping the validator builds from the four header lines the
converter writes (derived closed form of the parse loop on them). -/
def c1Headers (sample : String) : String → Option String :=
  updateH (updateH (updateH (updateH (fun _ => none) "SampleID" sample)
    "Version" "0.9.1") "Ranks" defaultRanksStr) "TaxonomyID" "NCBI"

/-! ### Concrete instances used by witnesses and counterexamples -/

/-- A well-behaved taxonomy oracle: lookups never fail, every identifier
has rank "species" and is its own one-element lineage. -/
def speciesNcbi : Ncbi where
  fails := fun _ => false
  rank := fun _ => some "species"
  lineage := fun t => some [t]
  name := fun _ => none

/-- An oracle under which identifier 3 resolves to the unsupported rank
"no rank" (so its row is dropped) while all others resolve to species. -/
def mixedNcbi : Ncbi where
  fails := fun _ => false
  rank := fun t => if t = 3 then some "no rank" else some "species"
  lineage := fun t => some [t]
  name := fun _ => none

/-- Two rows sharing the identifier "1". -/
def rowsDupId : List Row := [⟨some "1", some 1⟩, ⟨some "1", some 1⟩]

/-- Two emitted rows with count 1 each, next to a dominating row (count
10⁹) whose rank is dropped: the emitted percentages round to 0.000000. -/
def rowsTinyPct : List Row :=
  [⟨some "1", some 1⟩, ⟨some "2", some 1⟩, ⟨some "3", some 1000000000⟩]

/-- Two distinct rows with equal counts: each percentage is exactly 50. -/
def rowsFifty : List Row := [⟨some "1", some 1⟩, ⟨some "2", some 1⟩]

/-- A well-formed input row built from a positive integer identifier and a
count: the identifier cell holds the decimal string of the identifier. -/
def mkCleanRow (p : ℕ × ℚ) : Row := ⟨some (strOfNat p.1), some p.2⟩

/-- The record the conversion loop emits for a well-formed row (n, c)
when the resolved rank is kept: derived closed form of the loop body. -/
def cleanRecord (ncbi : Option Ncbi) (T : ℚ) (p : ℕ × ℚ) : TaxonRecord :=
  { taxid := (p.1 : ℤ),
    rank := (lookupMapping (get_taxonomy_info (p.1 : ℤ) ncbi).1).getD
      (get_taxonomy_info (p.1 : ℤ) ncbi).1,
    taxpath := (get_taxonomy_info (p.1 : ℤ) ncbi).2.1,
    taxpathsn := (get_taxonomy_info (p.1 : ℤ) ncbi).2.2,
    pct := round6 (p.2 / T * 100) }

/-- The facts about an emitted record that make its serialized data line
pass every row-level check of the validator. -/
def GoodRec (r : TaxonRecord) : Prop :=
  0 < r.taxid ∧ r.rank ∈ valid_ranks ∧ r.taxpath.getLast? = some r.taxid ∧
  r.taxpathsn.length = r.taxpath.length ∧
  (∀ s ∈ r.taxpathsn, '\t' ∉ s.data ∧ '|' ∉ s.data) ∧
  0 ≤ r.pct ∧ r.pct ≤ 100 ∧ ∃ m : ℕ, r.pct = (m : ℚ) / 1000000

/-- A crafted Bioboxes file whose two data rows have an empty TAXPATH
field (so the final pipe-delimited TAXPATH element is "" and differs from
the TAXID) and which is otherwise flawless. -/
def c7lines : List String :=
  ["@SampleID:s", "@Version:0.9.1",
   "@Ranks:superkingdom|phylum|class|order|family|genus|species|strain",
   "@TaxonomyID:NCBI", columnHeaderLine,
   "5\tspecies\t\t\t50.0", "6\tspecies\t\t\t50.0"]

/-- A crafted Bioboxes file whose single data row has TAXPATH "2|7" but
TAXID "5". -/
def c7wlines : List String :=
  ["@SampleID:s", "@Version:0.9.1",
   "@Ranks:superkingdom|phylum|class|order|family|genus|species|strain",
   "@TaxonomyID:NCBI", columnHeaderLine,
   "5\tspecies\t2|7\ta|b\t100.0"]

/-! ### String utility lemmas -/

theorem dropWhile_head_false (p : Char → Bool) :
    ∀ (l : List Char), (∀ c, l.head? = some c → p c = false) → l.dropWhile p = l
  | [], _ => rfl
  | c :: t, h => by simp [List.dropWhile_cons, h c rfl]

theorem pyStripL_eq_self {l : List Char} (h1 : ∀ c, l.head? = some c → isWS c = false)
    (h2 : ∀ c, l.getLast? = some c → isWS c = false) : pyStripL l = l := by
  unfold pyStripL
  rw [dropWhile_head_false _ _ h1]
  rw [dropWhile_head_false _ _ (fun c hc => h2 c (by rwa [← List.head?_reverse]))]
  exact List.reverse_reverse l

theorem pyStripL_of_all {l : List Char} (h : ∀ c ∈ l, isWS c = false) :
    pyStripL l = l :=
  pyStripL_eq_self (fun c hc => h c (List.mem_of_mem_head? hc))
    (fun c hc => h c (List.mem_of_mem_getLast? hc))

theorem pyStrip_of_all {s : String} (h : ∀ c ∈ s.data, isWS c = false) :
    pyStrip s = s := by
  unfold pyStrip
  rw [pyStripL_of_all h]

theorem splitCharL_ne_nil (sep : Char) : ∀ (l : List Char), splitCharL sep l ≠ []
  | [] => by simp [splitCharL]
  | c :: t => by
    have := splitCharL_ne_nil sep t
    unfold splitCharL
    match h : splitCharL sep t with
    | [] => exact absurd h this
    | a :: rt => by_cases hc : c = sep <;> simp [hc]

theorem splitCharL_no_sep {sep : Char} : ∀ {a : List Char}, sep ∉ a →
    splitCharL sep a = [a]
  | [], _ => rfl
  | c :: t, h => by
    have hc : c ≠ sep := fun e => h (e ▸ List.mem_cons_self c t)
    have ht : sep ∉ t := fun m => h (List.mem_cons_of_mem c m)
    unfold splitCharL
    rw [splitCharL_no_sep ht]
    simp [hc]

theorem splitCharL_append_sep {sep : Char} : ∀ {a : List Char}, sep ∉ a →
    ∀ (rest : List Char), splitCharL sep (a ++ sep :: rest) = a :: splitCharL sep rest
  | [], _, rest => by
    have h1 := splitCharL_ne_nil sep rest
    obtain ⟨x, rt, hx⟩ : ∃ x rt, splitCharL sep rest = x :: rt := by
      cases h2 : splitCharL sep rest with
      | nil => exact absurd h2 h1
      | cons a b => exact ⟨a, b, rfl⟩
    show splitCharL sep (sep :: rest) = [] :: splitCharL sep rest
    rw [splitCharL, hx]
    simp
  | c :: t, h, rest => by
    have hc : c ≠ sep := fun e => h (e ▸ List.mem_cons_self c t)
    have ht : sep ∉ t := fun m => h (List.mem_cons_of_mem c m)
    have ih := splitCharL_append_sep ht rest
    show splitCharL sep (c :: (t ++ sep :: rest)) = (c :: t) :: splitCharL sep rest
    rw [splitCharL, ih]
    simp [hc]

theorem splitCharL_joinSepL {sep : Char} : ∀ {L : List (List Char)}, L ≠ [] →
    (∀ a ∈ L, sep ∉ a) → splitCharL sep (joinSepL sep L) = L
  | [], h, _ => absurd rfl h
  | [a], _, h2 => by
    unfold joinSepL
    exact splitCharL_no_sep (h2 a (List.mem_singleton_self a))
  | a :: b :: t, _, h2 => by
    show splitCharL sep (a ++ sep :: joinSepL sep (b :: t)) = a :: (b :: t)
    rw [splitCharL_append_sep (h2 a (List.mem_cons_self a _))]
    rw [splitCharL_joinSepL (List.cons_ne_nil b t) (fun x hx => h2 x (List.mem_cons_of_mem a hx))]

theorem splitChar_joinSep {sep : Char} {L : List String} (h0 : L ≠ [])
    (h : ∀ a ∈ L, sep ∉ a.data) : splitChar sep (joinSep sep L) = L := by
  unfold splitChar joinSep
  rw [show (String.mk (joinSepL sep (L.map String.data))).data = joinSepL sep (L.map String.data) from rfl]
  rw [splitCharL_joinSepL (by simpa using h0) (by simpa using h)]
  have hmk : ∀ s : String, String.mk s.data = s := fun ⟨d⟩ => rfl
  rw [List.map_map, show String.mk ∘ String.data = id from funext hmk, List.map_id]

theorem startsWithL_single {x c : Char} {t : List Char} :
    startsWithL [x] (c :: t) = decide (x = c) := by
  simp [startsWithL]

/-! ### Decimal printing and parsing roundtrips -/

theorem data_append (a b : String) : (a ++ b).data = a.data ++ b.data := rfl

theorem mk_data (s : String) : String.mk s.data = s := by
  cases s
  rfl

theorem natDigitsF_eq_digits : ∀ (fuel n : ℕ), n ≤ fuel → natDigitsF fuel n = Nat.digits 10 n := by
  intro fuel
  induction fuel with
  | zero =>
    intro n hn
    interval_cases n
    simp [natDigitsF]
  | succ f ih =>
    intro n hn
    match n with
    | 0 => simp [natDigitsF]
    | m + 1 =>
      show (if m + 1 = 0 then [] else (m + 1) % 10 :: natDigitsF f ((m + 1) / 10)) = _
      rw [if_neg (Nat.succ_ne_zero m)]
      rw [ih ((m + 1) / 10) (by omega)]
      rw [show (10 : ℕ) = 8 + 2 from rfl, Nat.digits_add_two_add_one]

theorem natDigits_eq (n : ℕ) : natDigits n = Nat.digits 10 n :=
  natDigitsF_eq_digits n n le_rfl

theorem digitChar_isDigit {d : ℕ} (h : d < 10) : (digitChar d).isDigit = true := by
  interval_cases d <;> decide

theorem charVal_digitChar {d : ℕ} (h : d < 10) : charVal (digitChar d) = d := by
  interval_cases d <;> decide

theorem isWS_of_isDigit {c : Char} (h : c.isDigit = true) : isWS c = false := by
  unfold isWS
  rw [decide_eq_false_iff_not]
  intro h2
  rcases h2 with h2 | h2 | h2 | h2 <;> (subst h2; simp at h)

theorem strOfNat_all_digits (n : ℕ) : ∀ c ∈ (strOfNat n).data, c.isDigit = true := by
  unfold strOfNat
  by_cases h : n = 0
  · simp only [h, if_pos rfl]
    intro c hc
    simp at hc
    subst hc
    decide
  · simp only [if_neg h]
    intro c hc
    rw [List.mem_reverse] at hc
    obtain ⟨d, hd, rfl⟩ := List.mem_map.mp hc
    rw [natDigits_eq] at hd
    exact digitChar_isDigit (Nat.digits_lt_base (by norm_num) hd)

theorem strOfNat_ne_nil (n : ℕ) : (strOfNat n).data ≠ [] := by
  unfold strOfNat
  by_cases h : n = 0
  · simp [h]
  · simp only [if_neg h]
    simp [natDigits_eq, Nat.digits_ne_nil_iff_ne_zero, h]

theorem parseNatL_eq_ofDigits : ∀ (L : List ℕ), (∀ d ∈ L, d < 10) →
    parseNatL ((L.map digitChar).reverse) = Nat.ofDigits 10 L := by
  intro L
  induction L with
  | nil => intro _; rfl
  | cons d T ih =>
    intro h
    have hd : d < 10 := h d (List.mem_cons_self d T)
    unfold parseNatL
    rw [List.map_cons, List.reverse_cons, List.foldl_append]
    have ihT := ih (fun x hx => h x (List.mem_cons_of_mem d hx))
    unfold parseNatL at ihT
    rw [ihT]
    simp only [List.foldl_cons, List.foldl_nil]
    rw [charVal_digitChar hd, Nat.ofDigits_cons]
    ring

theorem parseNat?_strOfNat (n : ℕ) : parseNat? (strOfNat n) = some n := by
  unfold parseNat?
  rw [if_pos ⟨strOfNat_ne_nil n, by
    rw [List.all_eq_true]
    intro c hc
    exact strOfNat_all_digits n c hc⟩]
  congr 1
  by_cases h : n = 0
  · subst h
    decide
  · unfold strOfNat
    rw [if_neg h]
    rw [show (String.mk (((natDigits n).map digitChar).reverse)).data
          = ((natDigits n).map digitChar).reverse from rfl]
    rw [natDigits_eq]
    rw [parseNatL_eq_ofDigits _ (fun d hd => Nat.digits_lt_base (by norm_num) hd)]
    exact Nat.ofDigits_digits 10 n

theorem startsWith_sign_false {l : List Char} (h : ∀ c ∈ l, c.isDigit = true)
    {x : Char} (hx : x.isDigit = false) : startsWithL [x] l = false := by
  cases l with
  | nil => rfl
  | cons c t =>
    rw [startsWithL_single, decide_eq_false_iff_not]
    intro he
    subst he
    exact absurd (h x (List.mem_cons_self x t)) (by simp [hx])

theorem pyStrip_of_digits {s : String} (h : ∀ c ∈ s.data, c.isDigit = true) :
    pyStrip s = s :=
  pyStrip_of_all (fun c hc => isWS_of_isDigit (h c hc))

theorem pyInt?_strOfNat (n : ℕ) : pyInt? (strOfNat n) = some (n : ℤ) := by
  have h1 := startsWith_sign_false (l := (strOfNat n).data) (strOfNat_all_digits n)
    (x := '-') (by decide)
  have h2 := startsWith_sign_false (l := (strOfNat n).data) (strOfNat_all_digits n)
    (x := '+') (by decide)
  simp [pyInt?, pyStrip_of_digits (strOfNat_all_digits n), h1, h2, parseNat?_strOfNat]

theorem pyInt?_strOfInt (i : ℤ) : pyInt? (strOfInt i) = some i := by
  unfold strOfInt
  by_cases h : i < 0
  · rw [if_pos h]
    have hall : ∀ c ∈ ("-" ++ strOfNat i.natAbs).data, isWS c = false := by
      rw [data_append]
      intro c hc
      rcases List.mem_append.mp hc with hc | hc
      · simp at hc
        subst hc
        decide
      · exact isWS_of_isDigit (strOfNat_all_digits _ c hc)
    have hdata : ("-" ++ strOfNat i.natAbs).data = '-' :: (strOfNat i.natAbs).data := rfl
    have hdrop : strDrop 1 ("-" ++ strOfNat i.natAbs) = strOfNat i.natAbs := by
      unfold strDrop
      rw [hdata]
      simp [mk_data]
    simp only [pyInt?, pyStrip_of_all hall, hdata, startsWithL_single, decide_eq_true_eq,
      if_pos rfl, hdrop]
    rw [if_pos trivial]
    simp only [parseNat?_strOfNat, Option.bind_some, Option.map_some, Option.bind_eq_bind]
    have habs : ((i.natAbs : ℤ)) = -i := by omega
    simp [habs]
  · rw [if_neg h]
    rw [pyInt?_strOfNat]
    congr 1
    omega

/-! ### Rounding lemmas (the "%.6f" model) -/

theorem round6_sub_abs_le (x : ℚ) : |round6 x - x| ≤ 1 / 2000000 := by
  unfold round6
  have h1 : ((⌊x * 1000000 + 1 / 2⌋ : ℤ) : ℚ) ≤ x * 1000000 + 1 / 2 := Int.floor_le _
  have h2 : x * 1000000 + 1 / 2 < ((⌊x * 1000000 + 1 / 2⌋ : ℤ) : ℚ) + 1 :=
    Int.lt_floor_add_one _
  rw [abs_le]
  constructor <;> linarith

theorem round6_nonneg {x : ℚ} (h : 0 ≤ x) : 0 ≤ round6 x := by
  unfold round6
  have h1 : (0 : ℤ) ≤ ⌊x * 1000000 + 1 / 2⌋ := by
    rw [Int.le_floor]
    push_cast
    linarith
  have h2 : (0 : ℚ) ≤ ((⌊x * 1000000 + 1 / 2⌋ : ℤ) : ℚ) := by exact_mod_cast h1
  exact div_nonneg h2 (by norm_num)

theorem round6_mono {x y : ℚ} (h : x ≤ y) : round6 x ≤ round6 y := by
  unfold round6
  have h1 : (⌊x * 1000000 + 1 / 2⌋ : ℤ) ≤ ⌊y * 1000000 + 1 / 2⌋ :=
    Int.floor_le_floor (by linarith)
  have h2 : ((⌊x * 1000000 + 1 / 2⌋ : ℤ) : ℚ) ≤ ((⌊y * 1000000 + 1 / 2⌋ : ℤ) : ℚ) := by
    exact_mod_cast h1
  linarith

theorem round6_100 : round6 100 = 100 := by
  unfold round6
  have : (⌊(100 : ℚ) * 1000000 + 1 / 2⌋ : ℤ) = 100000000 := by
    rw [Int.floor_eq_iff]
    norm_num
  rw [this]
  norm_num

theorem round6_pos {x : ℚ} (h : 1 / 2000000 ≤ x) : 0 < round6 x := by
  unfold round6
  have h1 : (1 : ℤ) ≤ ⌊x * 1000000 + 1 / 2⌋ := by
    rw [Int.le_floor]
    push_cast
    linarith
  have h2 : (1 : ℚ) ≤ ((⌊x * 1000000 + 1 / 2⌋ : ℤ) : ℚ) := by exact_mod_cast h1
  linarith

theorem round6_le_100 {x : ℚ} (h : x ≤ 100) : round6 x ≤ 100 :=
  round6_100 ▸ round6_mono h

theorem round6_exists_nat {x : ℚ} (h : 0 ≤ x) :
    ∃ k : ℕ, round6 x = (k : ℚ) / 1000000 := by
  refine ⟨(⌊x * 1000000 + 1 / 2⌋).toNat, ?_⟩
  unfold round6
  congr 1
  have h1 : (0 : ℤ) ≤ ⌊x * 1000000 + 1 / 2⌋ := by
    rw [Int.le_floor]
    push_cast
    linarith
  exact_mod_cast (Int.toNat_of_nonneg h1).symm

/-! ### Roundtrip of the "%.6f" printer through the float parser -/

theorem parseNatL_strOfNat (n : ℕ) : parseNatL (strOfNat n).data = n := by
  have h := parseNat?_strOfNat n
  unfold parseNat? at h
  rw [if_pos ⟨strOfNat_ne_nil n, by
    rw [List.all_eq_true]
    exact fun c hc => strOfNat_all_digits n c hc⟩] at h
  exact Option.some.inj h

theorem parseNatL_replicate_zero (z : ℕ) (l : List Char) :
    parseNatL (List.replicate z '0' ++ l) = parseNatL l := by
  unfold parseNatL
  rw [List.foldl_append]
  congr 1
  induction z with
  | zero => rfl
  | succ m ih =>
    rw [List.replicate_succ, List.foldl_cons]
    rw [show (10 * 0 + charVal '0') = 0 from by decide]
    exact ih

theorem strOfNat_len_le6 {r : ℕ} (h : r < 1000000) : (strOfNat r).data.length ≤ 6 := by
  by_cases h0 : r = 0
  · subst h0
    decide
  · unfold strOfNat
    rw [if_neg h0]
    show (((natDigits r).map digitChar).reverse).length ≤ 6
    rw [List.length_reverse, List.length_map, natDigits_eq]
    by_contra hlen
    have h1 := Nat.base_pow_length_digits_le 10 r (by norm_num) h0
    have h2 : (10 : ℕ) ^ 7 ≤ 10 ^ (Nat.digits 10 r).length :=
      Nat.pow_le_pow_right (by norm_num) (by omega)
    norm_num at h2
    omega

theorem isDigit_ne_dot {c : Char} (h : c.isDigit = true) : c ≠ '.' := by
  intro e
  subst e
  simp at h

theorem isDigit_ne_tab {c : Char} (h : c.isDigit = true) : c ≠ '\t' := by
  intro e
  subst e
  simp at h

theorem isDigit_ne_pipe {c : Char} (h : c.isDigit = true) : c ≠ '|' := by
  intro e
  subst e
  simp at h

theorem format6_eq (k : ℕ) : format6 ((k : ℚ) / 1000000) =
    strOfNat (k / 1000000) ++ "." ++
      String.mk (List.replicate (6 - (strOfNat (k % 1000000)).data.length) '0' ++
        (strOfNat (k % 1000000)).data) := by
  have hfl : (⌊((k : ℚ) / 1000000) * 1000000⌋ : ℤ) = (k : ℤ) := by
    rw [show ((k : ℚ) / 1000000) * 1000000 = (k : ℚ) from by field_simp]
    exact Int.floor_natCast k
  simp only [format6, hfl, Int.toNat_natCast]

theorem format6_data (k : ℕ) : (format6 ((k : ℚ) / 1000000)).data =
    (strOfNat (k / 1000000)).data ++ '.' ::
      (List.replicate (6 - (strOfNat (k % 1000000)).data.length) '0' ++
        (strOfNat (k % 1000000)).data) := by
  rw [format6_eq, data_append, data_append]
  simp

theorem format6_all_digit_or_dot (k : ℕ) :
    ∀ c ∈ (format6 ((k : ℚ) / 1000000)).data, c.isDigit = true ∨ c = '.' := by
  rw [format6_data]
  intro c hc
  rcases List.mem_append.mp hc with hc | hc
  · exact Or.inl (strOfNat_all_digits _ c hc)
  · rcases List.mem_cons.mp hc with hc | hc
    · exact Or.inr hc
    · rcases List.mem_append.mp hc with hc | hc
      · left
        rw [List.eq_of_mem_replicate hc]
        decide
      · exact Or.inl (strOfNat_all_digits _ c hc)

theorem pyFloat?_format6 (k : ℕ) :
    pyFloat? (format6 ((k : ℚ) / 1000000)) = some ((k : ℚ) / 1000000) := by
  have hall := format6_all_digit_or_dot k
  have hstrip : pyStrip (format6 ((k : ℚ) / 1000000)) = format6 ((k : ℚ) / 1000000) := by
    refine pyStrip_of_all (fun c hc => ?_)
    rcases hall c hc with h | h
    · exact isWS_of_isDigit h
    · subst h
      decide
  obtain ⟨c0, t0, hcons⟩ : ∃ c0 t0, (strOfNat (k / 1000000)).data = c0 :: t0 := by
    cases hd : (strOfNat (k / 1000000)).data with
    | nil => exact absurd hd (strOfNat_ne_nil _)
    | cons a b => exact ⟨a, b, rfl⟩
  have hc0 : c0.isDigit = true :=
    strOfNat_all_digits _ c0 (by rw [hcons]; exact List.mem_cons_self c0 t0)
  have hdata := format6_data k
  rw [hcons] at hdata
  have hsign : ∀ x : Char, x.isDigit = false →
      startsWithL [x] (format6 ((k : ℚ) / 1000000)).data = false := by
    intro x hx
    rw [hdata, List.cons_append, startsWithL_single, decide_eq_false_iff_not]
    intro he
    subst he
    rw [hc0] at hx
    cases hx
  simp only [pyFloat?, hstrip, hsign '-' (by decide), hsign '+' (by decide),
    Bool.false_eq_true, if_false]
  unfold pyFloatMag
  have hsplitL : splitCharL '.' (format6 ((k : ℚ) / 1000000)).data =
      [(strOfNat (k / 1000000)).data,
       List.replicate (6 - (strOfNat (k % 1000000)).data.length) '0' ++
         (strOfNat (k % 1000000)).data] := by
    rw [format6_data]
    rw [splitCharL_append_sep (fun hm => isDigit_ne_dot (strOfNat_all_digits _ _ hm) rfl)]
    rw [splitCharL_no_sep]
    intro hm
    rcases List.mem_append.mp hm with hm | hm
    · have := List.eq_of_mem_replicate hm
      simp at this
    · exact isDigit_ne_dot (strOfNat_all_digits _ _ hm) rfl
  rw [show splitChar '.' (format6 ((k : ℚ) / 1000000)) =
      (splitCharL '.' (format6 ((k : ℚ) / 1000000)).data).map String.mk from rfl]
  rw [hsplitL]
  simp only [List.map_cons, List.map_nil]
  have hrlen : (strOfNat (k % 1000000)).data.length ≤ 6 :=
    strOfNat_len_le6 (Nat.mod_lt k (by norm_num))
  have hfracdig : ∀ c ∈ List.replicate (6 - (strOfNat (k % 1000000)).data.length) '0' ++
      (strOfNat (k % 1000000)).data, c.isDigit = true := by
    intro c hc
    rcases List.mem_append.mp hc with hc | hc
    · rw [List.eq_of_mem_replicate hc]
      decide
    · exact strOfNat_all_digits _ c hc
  rw [if_pos]
  · congr 1
    rw [parseNatL_replicate_zero, parseNatL_strOfNat, parseNatL_strOfNat]
    rw [List.length_append, List.length_replicate]
    rw [show 6 - (strOfNat (k % 1000000)).data.length + (strOfNat (k % 1000000)).data.length
          = 6 from by omega]
    have hdm : 1000000 * (k / 1000000) + k % 1000000 = k := Nat.div_add_mod k 1000000
    have : ((k : ℚ)) = 1000000 * ((k / 1000000 : ℕ) : ℚ) + ((k % 1000000 : ℕ) : ℚ) := by
      exact_mod_cast hdm.symm
    rw [this]
    ring
  · refine ⟨Or.inl (strOfNat_ne_nil _), ?_, ?_⟩
    · rw [List.all_eq_true]
      exact fun c hc => strOfNat_all_digits _ c hc
    · rw [List.all_eq_true]
      exact fun c hc => hfracdig c hc

/-! ### Sum lemmas -/

theorem abs_sum_map_round6_sub (l : List ℚ) :
    |(l.map round6).sum - l.sum| ≤ (l.length : ℚ) / 2000000 := by
  induction l with
  | nil => simp
  | cons x t ih =>
    simp only [List.map_cons, List.sum_cons, List.length_cons]
    have h1 := round6_sub_abs_le x
    have h2 : |round6 x + (t.map round6).sum - (x + t.sum)|
        ≤ |round6 x - x| + |(t.map round6).sum - t.sum| := by
      have := abs_add (round6 x - x) ((t.map round6).sum - t.sum)
      calc |round6 x + (t.map round6).sum - (x + t.sum)|
          = |(round6 x - x) + ((t.map round6).sum - t.sum)| := by ring_nf
        _ ≤ _ := this
    have h3 : ((t.length + 1 : ℕ) : ℚ) / 2000000
        = 1 / 2000000 + (t.length : ℚ) / 2000000 := by
      push_cast
      ring
    rw [h3]
    linarith

theorem sum_lt_length_mul {l : List ℚ} {b : ℚ} (h0 : l ≠ []) (h : ∀ x ∈ l, x < b) :
    l.sum < (l.length : ℚ) * b := by
  induction l with
  | nil => exact absurd rfl h0
  | cons x t ih =>
    by_cases ht : t = []
    · subst ht
      have := h x (List.mem_cons_self x [])
      simp only [List.sum_cons, List.sum_nil, List.length_cons, List.length_nil]
      push_cast
      linarith
    · have hi := ih ht (fun y hy => h y (List.mem_cons_of_mem _ hy))
      have hx := h x (List.mem_cons_self x t)
      simp only [List.sum_cons, List.length_cons]
      push_cast
      linarith

theorem sum_map_div_mul (l : List ℚ) (t : ℚ) :
    (l.map (fun c => c / t * 100)).sum = l.sum / t * 100 := by
  induction l with
  | nil => simp
  | cons x r ih =>
    simp only [List.map_cons, List.sum_cons, ih]
    ring

/-! ### Structural lemmas about the converter -/

theorem get_taxonomy_info_len (taxid : ℤ) (ncbi : Option Ncbi) :
    ((get_taxonomy_info taxid ncbi).2.2).length = ((get_taxonomy_info taxid ncbi).2.1).length := by
  unfold get_taxonomy_info degradedInfo
  match ncbi with
  | none => rfl
  | some o =>
    by_cases h : o.fails taxid
    · simp [h]
    · simp [h]

theorem lookupMapping_val {r v : String} (h : lookupMapping r = some v) :
    v = "strain" ∨ v = "superkingdom" := by
  unfold lookupMapping rank_mapping at h
  by_cases h1 : ("subspecies" : String) = r
  · simp [List.find?, h1] at h
    exact Or.inl h.symm
  · by_cases h2 : ("domain" : String) = r
    · simp [List.find?, h1, h2] at h
      exact Or.inr h.symm
    · by_cases h3 : ("kingdom" : String) = r
      · simp [List.find?, h1, h2, h3] at h
        exact Or.inr h.symm
      · simp [List.find?, h1, h2, h3] at h

theorem mappedRank_mem_iff (rank : String) :
    (rank ∈ valid_ranks ∨ (lookupMapping rank).isSome = true) ↔
      (lookupMapping rank).getD rank ∈ valid_ranks := by
  constructor
  · intro h
    cases hm : lookupMapping rank with
    | none =>
      rcases h with h | h
      · simpa [hm] using h
      · rw [hm] at h
        cases h
    | some v =>
      rcases lookupMapping_val hm with rfl | rfl <;> simp [valid_ranks]
  · intro h
    cases hm : lookupMapping rank with
    | none =>
      rw [hm] at h
      exact Or.inl (by simpa using h)
    | some v => exact Or.inr rfl

theorem processRow_inv {ncbi : Option Ncbi} {total : ℚ} {p : String × ℚ} {r : TaxonRecord}
    (h : processRow ncbi total p = some r) :
    ∃ taxid, pyInt? p.1 = some taxid ∧
      r.taxid = taxid ∧
      r.taxpath = (get_taxonomy_info taxid ncbi).2.1 ∧
      r.taxpathsn = (get_taxonomy_info taxid ncbi).2.2 ∧
      r.rank = (lookupMapping (get_taxonomy_info taxid ncbi).1).getD
        (get_taxonomy_info taxid ncbi).1 ∧
      r.rank ∈ valid_ranks ∧
      r.pct = round6 (if 0 < total then p.2 / total * 100 else 0) := by
  unfold processRow at h
  cases hp : pyInt? p.1 with
  | none => rw [hp] at h; cases h
  | some taxid =>
    rw [hp] at h
    simp only at h
    split at h
    case isTrue hc =>
      refine ⟨taxid, rfl, ?_⟩
      obtain rfl := (Option.some.inj h).symm
      refine ⟨rfl, rfl, rfl, rfl, ?_, rfl⟩
      exact (mappedRank_mem_iff _).mp (by simpa using hc)
    case isFalse hc => cases h

theorem mem_renormalize {rs : List TaxonRecord} {r : TaxonRecord} (h : r ∈ renormalize rs) :
    ∃ r0 ∈ rs, r.taxid = r0.taxid ∧ r.rank = r0.rank ∧
      r.taxpath = r0.taxpath ∧ r.taxpathsn = r0.taxpathsn := by
  unfold renormalize at h
  split at h
  · obtain ⟨r0, hr0, rfl⟩ := List.mem_map.mp h
    exact ⟨r0, hr0, rfl, rfl, rfl, rfl⟩
  · exact ⟨r, h, rfl, rfl, rfl, rfl⟩

theorem processRow_eq (ncbi : Option Ncbi) (total : ℚ) (p : String × ℚ) (t : ℤ)
    (ht : pyInt? p.1 = some t) :
    processRow ncbi total p =
      if (get_taxonomy_info t ncbi).1 ∈ valid_ranks ∨
          (lookupMapping (get_taxonomy_info t ncbi).1).isSome = true then
        some { taxid := t,
               rank := (lookupMapping (get_taxonomy_info t ncbi).1).getD
                 (get_taxonomy_info t ncbi).1,
               taxpath := (get_taxonomy_info t ncbi).2.1,
               taxpathsn := (get_taxonomy_info t ncbi).2.2,
               pct := round6 (if 0 < total then p.2 / total * 100 else 0) }
      else none := by
  unfold processRow
  rw [ht]

theorem processRow_none_ncbi (total : ℚ) (p : String × ℚ) :
    processRow none total p = none := by
  unfold processRow
  cases pyInt? p.1 with
  | none => rfl
  | some t =>
    show (if ("unknown" ∈ valid_ranks ∨ (lookupMapping "unknown").isSome = true)
      then _ else none) = none
    rw [if_neg]
    intro h
    rcases h with h | h
    · simp [valid_ranks] at h
    · simp [lookupMapping, rank_mapping, List.find?] at h

theorem renormalize_nil : renormalize [] = [] := by
  unfold renormalize
  split <;> rfl

theorem preResults_of_validRows_nil {ncbi : Option Ncbi} {rows : List Row}
    (h : validRows rows = []) : preResults ncbi rows = [] := by
  unfold preResults
  rw [h]
  rfl

theorem preResults_none_nil (rows : List Row) : preResults none rows = [] := by
  unfold preResults
  exact List.filterMap_eq_nil_iff.mpr (fun p _ => processRow_none_ncbi _ p)

theorem convert_hasCols_ok (ncbi : Option Ncbi) (rows : List Row)
    (sample version ranksStr db : String) :
    (convert_taxpasta_to_bioboxes ncbi ⟨true, rows⟩ sample version ranksStr db).isOk = true :=
  rfl

theorem convert_empty_data (ncbi : Option Ncbi) (rows : List Row)
    (sample version ranksStr db : String) (h : preResults ncbi rows = []) :
    convert_taxpasta_to_bioboxes ncbi ⟨true, rows⟩ sample version ranksStr db =
      .ok ["@SampleID:" ++ sample, "@Version:" ++ version, "@Ranks:" ++ ranksStr,
           "@TaxonomyID:" ++ db, columnHeaderLine] := by
  unfold convert_taxpasta_to_bioboxes
  rw [if_pos rfl]
  unfold outputLines finalResults
  rw [h, renormalize_nil]
  rfl

/-! ### Claim theorems -/

/-- Claim C6: for every positive integer identifier, if the taxonomy
database is unavailable (no NCBITaxa object) or the lookup for the
identifier fails, get_taxonomy_info returns exactly the degraded result:
rank "unknown", ancestor-id chain [identifier], ancestor-name chain
["taxid_" ++ identifier].  Exceptions cannot propagate past this boundary:
the lookup is modelled as a total function precisely because the source
catches every exception of the try-block and degrades. -/
theorem C6_lookup_degraded (taxid : ℤ) (ncbi : Option Ncbi) (_hpos : 0 < taxid)
    (h : ncbi = none ∨ ∃ o, ncbi = some o ∧ o.fails taxid = true) :
    get_taxonomy_info taxid ncbi = ("unknown", [taxid], ["taxid_" ++ strOfInt taxid]) := by
  rcases h with rfl | ⟨o, rfl, hf⟩
  · rfl
  · unfold get_taxonomy_info
    simp [hf, degradedInfo]

/-- Witness for C6 at identifier 562 with an absent database. -/
theorem C6_witness :
    (0 : ℤ) < 562 ∧ get_taxonomy_info 562 none = ("unknown", [562], ["taxid_562"]) := by
  refine ⟨by norm_num, ?_⟩
  have h := C6_lookup_degraded 562 none (by norm_num) (Or.inl rfl)
  rw [h]
  decide

/-- Claim C3: a row processed by the conversion loop (its identifier
parses as an integer) is emitted iff its resolved rank, after the fixed
mapping table, lies in the allowed rank set; and a row whose resolved rank
is neither in the allowed set nor a key of the mapping table is never
emitted. -/
theorem C3_rank_filter (ncbi : Option Ncbi) (total : ℚ) (p : String × ℚ) (t : ℤ)
    (ht : pyInt? p.1 = some t) :
    ((processRow ncbi total p).isSome = true ↔
      (lookupMapping (get_taxonomy_info t ncbi).1).getD (get_taxonomy_info t ncbi).1
        ∈ valid_ranks) ∧
    (((get_taxonomy_info t ncbi).1 ∉ valid_ranks ∧
        lookupMapping (get_taxonomy_info t ncbi).1 = none) →
      processRow ncbi total p = none) := by
  rw [processRow_eq ncbi total p t ht]
  constructor
  · constructor
    · intro hs
      split at hs
      case isTrue hc => exact (mappedRank_mem_iff _).mp hc
      case isFalse hc => simp at hs
    · intro hm
      rw [if_pos ((mappedRank_mem_iff _).mpr hm)]
      rfl
  · rintro ⟨h1, h2⟩
    rw [if_neg]
    rintro (hc | hc)
    · exact h1 hc
    · rw [h2] at hc
      cases hc

/-- Witness for C3: with no taxonomy database the resolved rank of row
("562", 1) is "unknown", which is neither allowed nor mapped, and the row
is dropped. -/
theorem C3_witness :
    pyInt? "562" = some 562 ∧ processRow none 1 ("562", 1) = none := by
  have ht : pyInt? "562" = some 562 := by decide
  refine ⟨ht, ?_⟩
  exact (C3_rank_filter none 1 ("562", 1) 562 ht).2 (by decide)

/-- Claim C10 (implicit): in simplified mode (taxonomy library absent or
disabled), every row resolves to rank "unknown", which is neither allowed
nor mapped, so for every row list the converter succeeds with an output
consisting of exactly the four @ header lines and the @@ column-header
line, and no data lines. -/
theorem C10_simplified_empty_output (rows : List Row) (sample version ranksStr db : String) :
    convert_taxpasta_to_bioboxes none ⟨true, rows⟩ sample version ranksStr db =
      .ok ["@SampleID:" ++ sample, "@Version:" ++ version, "@Ranks:" ++ ranksStr,
           "@TaxonomyID:" ++ db, columnHeaderLine] :=
  convert_empty_data none rows sample version ranksStr db (preResults_none_nil rows)

/-- Claim C5 (amended): with the required columns present the converter
never fails, whatever the rows are; rows with a missing identifier or a
missing or non-positive count are merely dropped, and when no valid row
remains the converter still succeeds, writing a file with headers and no
data rows (the source only logs a warning in that case). -/
theorem C5_dropped_rows_never_fail (ncbi : Option Ncbi) (rows : List Row)
    (sample version ranksStr db : String) :
    (convert_taxpasta_to_bioboxes ncbi ⟨true, rows⟩ sample version ranksStr db).isOk = true ∧
    (validRows rows = [] →
      convert_taxpasta_to_bioboxes ncbi ⟨true, rows⟩ sample version ranksStr db =
        .ok ["@SampleID:" ++ sample, "@Version:" ++ version, "@Ranks:" ++ ranksStr,
             "@TaxonomyID:" ++ db, columnHeaderLine]) :=
  ⟨convert_hasCols_ok ncbi rows sample version ranksStr db,
   fun h => convert_empty_data ncbi rows sample version ranksStr db
     (preResults_of_validRows_nil h)⟩

/-- Witness for C5 at a one-row input whose count is zero. -/
theorem C5_witness :
    validRows [⟨some "5", some 0⟩] = [] ∧
    convert_taxpasta_to_bioboxes none ⟨true, [⟨some "5", some 0⟩]⟩ "s" "0.9.1"
        defaultRanksStr "NCBI" =
      .ok ["@SampleID:" ++ "s", "@Version:" ++ "0.9.1", "@Ranks:" ++ defaultRanksStr,
           "@TaxonomyID:" ++ "NCBI", columnHeaderLine] := by
  have hv : validRows [⟨some "5", some 0⟩] = [] := by
    norm_num [validRows, List.filterMap]
  exact ⟨hv, (C5_dropped_rows_never_fail none [⟨some "5", some 0⟩] "s" "0.9.1"
    defaultRanksStr "NCBI").2 hv⟩

/-- Counterexample to C5 as stated: an input whose rows are all dropped
(count 0) leaves zero rows, yet the conversion does not fail: it succeeds
and writes a file with no data rows. -/
theorem C5_counterexample :
    validRows [⟨some "5", some 0⟩] = [] ∧
    (convert_taxpasta_to_bioboxes none ⟨true, [⟨some "5", some 0⟩]⟩ "s" "0.9.1"
        defaultRanksStr "NCBI").isOk = true := by
  have hv : validRows [⟨some "5", some 0⟩] = [] := by
    norm_num [validRows, List.filterMap]
  exact ⟨hv, convert_hasCols_ok none [⟨some "5", some 0⟩] "s" "0.9.1" defaultRanksStr "NCBI"⟩

/-- Claim C4 (amended): the validator exit code is 1 exactly when the file
failed validation and --strict was given; it is 0 exactly when the file is
valid or --strict was not given — in particular a validation failure
without --strict still exits 0. -/
theorem C4_exit_codes (lines : List String) (strict : Bool) :
    (validatorExit strict (validate_bioboxes lines).1 = 1 ↔
      ((validate_bioboxes lines).1 = false ∧ strict = true)) ∧
    (validatorExit strict (validate_bioboxes lines).1 = 0 ↔
      ((validate_bioboxes lines).1 = true ∨ strict = false)) := by
  cases h : (validate_bioboxes lines).1 <;> cases strict <;> simp [validatorExit]

/-- Counterexample to C4 as stated: a file that fails validation (missing
required headers and column header), run without --strict, exits 0, not 1. -/
theorem C4_counterexample :
    (validate_bioboxes ["@SampleID:s"]).1 = false ∧
    validatorExit false (validate_bioboxes ["@SampleID:s"]).1 = 0 := by
  decide

/-! ### Parse-state lemmas for the validator -/

theorem snd_mem_of_mem_enumFrom {α : Type} : ∀ {n : ℕ} {l : List α} {p : ℕ × α},
    p ∈ List.enumFrom n l → p.2 ∈ l := by
  intro n l
  induction l generalizing n with
  | nil => intro p h; cases h
  | cons x t ih =>
    intro p h
    simp only [List.enumFrom] at h
    rcases List.mem_cons.mp h with rfl | h
    · exact List.mem_cons_self x t
    · exact List.mem_cons_of_mem x (ih h)

theorem foldl_parseStep_headers_none (k : String) :
    ∀ (ps : List (ℕ × String)) (st : PSt), st.headers k = none →
    (∀ p ∈ ps, ∀ v, parseHeaderLine (pyStrip p.2) ≠ some (k, v)) →
    ((ps.foldl parseStep st).headers k) = none := by
  intro ps
  induction ps with
  | nil => intro st h _; exact h
  | cons p t ih =>
    intro st h hall
    rw [List.foldl_cons]
    refine ih (parseStep st p) ?_ (fun q hq v => hall q (List.mem_cons_of_mem p hq) v)
    simp only [parseStep]
    split
    · exact h
    · split
      · exact h
      · split
        · cases hp : parseHeaderLine (pyStrip p.2) with
          | none => simp only [hp]; exact h
          | some kv =>
            simp only [hp]
            show updateH st.headers kv.1 kv.2 k = none
            unfold updateH
            split
            case isTrue he =>
              exact absurd (by rw [hp, he]) (hall p (List.mem_cons_self p t) kv.2)
            case isFalse => exact h
        · split
          · exact h
          · exact h

theorem parseAll_headers_none {lines : List String} {k : String}
    (h : ∀ l ∈ lines, ∀ v, parseHeaderLine (pyStrip l) ≠ some (k, v)) :
    (parseAll lines).headers k = none :=
  foldl_parseStep_headers_none k _ initPSt rfl
    (fun p hp v => h p.2 (snd_mem_of_mem_enumFrom hp) v)

theorem missingHeader_mem_requiredHeaderDiags {h : String → Option String}
    (hr : h "Ranks" = none) : Diag.missingHeader "Ranks" ∈ requiredHeaderDiags h := by
  unfold requiredHeaderDiags
  refine List.mem_map.mpr ⟨"Ranks", List.mem_filter.mpr ⟨by decide, ?_⟩, rfl⟩
  rw [hr]
  rfl

theorem validate_isValid_iff (lines : List String) :
    (validate_bioboxes lines).1 = true ↔ (validate_bioboxes lines).2 = [] := by
  simp only [validate_bioboxes]
  split
  · simp
  · split
    · simp
    · simp [List.isEmpty_iff]

/-- Claim C8 (amended): for every nonempty file none of whose lines parses
as a "@Ranks:..." header, the validator diagnostics contain the
missing-Ranks diagnostic, whose message is exactly
"Missing required header: @Ranks", and the file is reported invalid; and
for every file whatsoever, is_valid is true exactly when the diagnostic
list is empty.  (The empty file is the one exception to the first part of
the original claim: it returns only the "File is empty" diagnostic.) -/
theorem C8_missing_ranks (lines : List String) (hne : lines ≠ [])
    (hR : ∀ l ∈ lines, ∀ v, parseHeaderLine (pyStrip l) ≠ some ("Ranks", v)) :
    (Diag.missingHeader "Ranks" ∈ (validate_bioboxes lines).2 ∧
     render (Diag.missingHeader "Ranks") = "Missing required header: @Ranks" ∧
     (validate_bioboxes lines).1 = false) ∧
    (∀ ls : List String, ((validate_bioboxes ls).1 = true ↔ (validate_bioboxes ls).2 = [])) := by
  have hnone := parseAll_headers_none hR
  have hmem0 : Diag.missingHeader "Ranks" ∈ headerDiags (parseAll lines).headers := by
    unfold headerDiags
    have := missingHeader_mem_requiredHeaderDiags hnone
    simp only [List.mem_append]
    tauto
  have hmem : Diag.missingHeader "Ranks" ∈ (validate_bioboxes lines).2 := by
    simp only [validate_bioboxes, if_neg hne]
    split
    · simp only [List.mem_append]
      tauto
    · simp only [List.mem_append]
      tauto
  refine ⟨⟨hmem, rfl, ?_⟩, validate_isValid_iff⟩
  cases hv : (validate_bioboxes lines).1
  · rfl
  · exfalso
    have h2 := (validate_isValid_iff lines).mp hv
    rw [h2] at hmem
    cases hmem

/-- Witness for C8 at the one-line file ["@SampleID:s"]. -/
theorem C8_witness :
    (["@SampleID:s"] : List String) ≠ [] ∧
    Diag.missingHeader "Ranks" ∈ (validate_bioboxes ["@SampleID:s"]).2 ∧
    (validate_bioboxes ["@SampleID:s"]).1 = false := by
  have hne : (["@SampleID:s"] : List String) ≠ [] := by decide
  have hR : ∀ l ∈ (["@SampleID:s"] : List String), ∀ v,
      parseHeaderLine (pyStrip l) ≠ some ("Ranks", v) := by
    intro l hl v
    rcases List.mem_singleton.mp hl with rfl
    rw [show parseHeaderLine (pyStrip "@SampleID:s") = some ("SampleID", "s") from by decide]
    intro hcon
    have h2 := Option.some.inj hcon
    have h3 : ("SampleID" : String) = "Ranks" := congrArg Prod.fst h2
    exact absurd h3 (by decide)
  have h := C8_missing_ranks _ hne hR
  exact ⟨hne, h.1.1, h.1.2.2⟩

/-- Counterexample to C8 as stated: the empty file is missing the @Ranks
header, and is_valid is false, but its single diagnostic is "File is
empty" — no diagnostic mentions the missing @Ranks header. -/
theorem C8_counterexample :
    validate_bioboxes [] = (false, [Diag.fileEmpty]) ∧
    Diag.missingHeader "Ranks" ∉ (validate_bioboxes []).2 ∧
    (∀ d ∈ (validate_bioboxes []).2, render d ≠ "Missing required header: @Ranks") := by
  decide

/-! ### Invariants and diagnostic shapes, for the duplicate check -/

theorem countP_zero_of_false {α : Type} {p : α → Bool} {l : List α}
    (h : ∀ a ∈ l, p a = false) : l.countP p = 0 :=
  List.countP_eq_zero.mpr (fun a ha => by simp [h a ha])

theorem parseStep_P {st : PSt} {p : ℕ × String}
    (h1 : st.inData = true → st.colHeader.isSome = true)
    (h2 : st.data ≠ [] → st.colHeader.isSome = true) :
    ((parseStep st p).inData = true → (parseStep st p).colHeader.isSome = true) ∧
    ((parseStep st p).data ≠ [] → (parseStep st p).colHeader.isSome = true) := by
  simp only [parseStep]
  split
  · exact ⟨h1, h2⟩
  · split
    · exact ⟨fun _ => rfl, fun _ => rfl⟩
    · split
      · cases parseHeaderLine (pyStrip p.2) with
        | some kv => exact ⟨h1, h2⟩
        | none => exact ⟨h1, h2⟩
      · split
        case isTrue hin => exact ⟨fun _ => h1 hin, fun _ => h1 hin⟩
        case isFalse => exact ⟨h1, h2⟩

theorem foldl_parseStep_P :
    ∀ (ps : List (ℕ × String)) (st : PSt),
    (st.inData = true → st.colHeader.isSome = true) →
    (st.data ≠ [] → st.colHeader.isSome = true) →
    ((ps.foldl parseStep st).inData = true → (ps.foldl parseStep st).colHeader.isSome = true) ∧
    ((ps.foldl parseStep st).data ≠ [] → (ps.foldl parseStep st).colHeader.isSome = true) := by
  intro ps
  induction ps with
  | nil => intro st h1 h2; exact ⟨h1, h2⟩
  | cons p t ih =>
    intro st h1 h2
    rw [List.foldl_cons]
    exact ih (parseStep st p) (parseStep_P h1 h2).1 (parseStep_P h1 h2).2

theorem parseAll_colHeader_of_data {lines : List String}
    (h : (parseAll lines).data ≠ []) : ∃ ch, (parseAll lines).colHeader = some ch := by
  have hP := foldl_parseStep_P (List.enumFrom 1 lines) initPSt
    (fun h => by cases h) (fun h => absurd rfl h)
  have := hP.2 h
  cases hco : (parseAll lines).colHeader with
  | none => rw [show (List.enumFrom 1 lines).foldl parseStep initPSt = parseAll lines from rfl,
      hco] at this; cases this
  | some ch => exact ⟨ch, rfl⟩

theorem parseStep_errs_not_dup {st : PSt} {p : ℕ × String}
    (h : ∀ d ∈ st.errs, isDupDiag d = false) :
    ∀ d ∈ (parseStep st p).errs, isDupDiag d = false := by
  simp only [parseStep]
  split
  · exact h
  · split
    · exact h
    · split
      · cases parseHeaderLine (pyStrip p.2) with
        | some kv => exact h
        | none =>
          intro d hd
          rcases List.mem_append.mp hd with hd | hd
          · exact h d hd
          · rcases List.mem_singleton.mp hd with rfl
            rfl
      · split
        · exact h
        · exact h

theorem parseAll_errs_not_dup (lines : List String) :
    ∀ d ∈ (parseAll lines).errs, isDupDiag d = false := by
  unfold parseAll
  generalize List.enumFrom 1 lines = ps
  have key : ∀ (ps : List (ℕ × String)) (st : PSt),
      (∀ d ∈ st.errs, isDupDiag d = false) →
      ∀ d ∈ (ps.foldl parseStep st).errs, isDupDiag d = false := by
    intro ps
    induction ps with
    | nil => intro st h; exact h
    | cons p t ih =>
      intro st h
      rw [List.foldl_cons]
      exact ih (parseStep st p) (parseStep_errs_not_dup h)
  exact key ps initPSt (fun d hd => by cases hd)

theorem headerDiags_not_dup (h : String → Option String) :
    ∀ d ∈ headerDiags h, isDupDiag d = false := by
  intro d hd
  unfold headerDiags at hd
  simp only [List.mem_append] at hd
  rcases hd with ((hd | hd) | hd) | hd
  · unfold requiredHeaderDiags at hd
    obtain ⟨k, _, rfl⟩ := List.mem_map.mp hd
    rfl
  · unfold versionDiags at hd
    split at hd
    · cases hd
    · split at hd
      · cases hd
      · rcases List.mem_singleton.mp hd with rfl
        rfl
  · simp only [ranksHeaderDiags] at hd
    split at hd
    · cases hd
    · split at hd
      · cases hd
      · rcases List.mem_singleton.mp hd with rfl
        rfl
  · unfold taxdbDiags at hd
    split at hd
    · cases hd
    · split at hd
      · cases hd
      · rcases List.mem_singleton.mp hd with rfl
        rfl

theorem columnDiags_not_dup (ch : String) :
    ∀ d ∈ columnDiags ch, isDupDiag d = false := by
  intro d hd
  simp only [columnDiags] at hd
  split at hd
  · cases hd
  · rcases List.mem_cons.mp hd with rfl | hd
    · rfl
    · rcases List.mem_singleton.mp hd with rfl
      rfl

theorem taxidDiags_shape (ln : ℕ) (t : String) :
    ∀ d ∈ taxidDiags ln t, isDupDiag d = false ∧ d.lineNo = some ln := by
  intro d hd
  unfold taxidDiags at hd
  split at hd
  · split at hd
    · rcases List.mem_singleton.mp hd with rfl
      exact ⟨rfl, rfl⟩
    · cases hd
  · rcases List.mem_singleton.mp hd with rfl
    exact ⟨rfl, rfl⟩

theorem rankDiags_shape (rv : Option String) (ln : ℕ) (r : String) :
    ∀ d ∈ rankDiags rv ln r, isDupDiag d = false ∧ d.lineNo = some ln := by
  intro d hd
  unfold rankDiags at hd
  split at hd
  · cases hd
  · split at hd
    · cases hd
    · rcases List.mem_singleton.mp hd with rfl
      exact ⟨rfl, rfl⟩

theorem taxpathDiags_shape (ln : ℕ) (t tp : String) :
    ∀ d ∈ taxpathDiags ln t tp, isDupDiag d = false ∧ d.lineNo = some ln := by
  intro d hd
  unfold taxpathDiags at hd
  split at hd
  · cases hd
  · rcases List.mem_append.mp hd with hd | hd
    · split at hd
      · rcases List.mem_singleton.mp hd with rfl
        exact ⟨rfl, rfl⟩
      · cases hd
    · split at hd
      · cases hd
      · split at hd
        · cases hd
        · split at hd
          · split at hd
            · rcases List.mem_singleton.mp hd with rfl
              exact ⟨rfl, rfl⟩
            · cases hd
          · cases hd

theorem tpsnDiags_shape (ln : ℕ) (tp tpsn : String) :
    ∀ d ∈ tpsnDiags ln tp tpsn, isDupDiag d = false ∧ d.lineNo = some ln := by
  intro d hd
  simp only [tpsnDiags] at hd
  split at hd
  · split at hd
    · rcases List.mem_singleton.mp hd with rfl
      exact ⟨rfl, rfl⟩
    · cases hd
  · cases hd

theorem pctDiags_shape (ln : ℕ) (pc : String) :
    ∀ d ∈ pctDiags ln pc, isDupDiag d = false ∧ d.lineNo = some ln := by
  intro d hd
  unfold pctDiags at hd
  split at hd
  · split at hd
    · rcases List.mem_singleton.mp hd with rfl
      exact ⟨rfl, rfl⟩
    · cases hd
  · rcases List.mem_singleton.mp hd with rfl
    exact ⟨rfl, rfl⟩

theorem rowDiags_shape (rv : Option String) (p : ℕ × String) :
    ∀ d ∈ rowDiags rv p, isDupDiag d = false ∧ d.lineNo = some p.1 := by
  intro d hd
  unfold rowDiags at hd
  split at hd
  · simp only [List.mem_append] at hd
    rcases hd with (((hd | hd) | hd) | hd) | hd
    · exact taxidDiags_shape _ _ d hd
    · exact rankDiags_shape _ _ _ d hd
    · exact taxpathDiags_shape _ _ _ d hd
    · exact tpsnDiags_shape _ _ _ d hd
    · exact pctDiags_shape _ _ d hd
  · rcases List.mem_singleton.mp hd with rfl
    exact ⟨rfl, rfl⟩

theorem sumDiags_not_dup (pcts : List ℚ) :
    ∀ d ∈ sumDiags pcts, isDupDiag d = false := by
  intro d hd
  unfold sumDiags at hd
  split at hd
  · cases hd
  · split at hd
    · rcases List.mem_singleton.mp hd with rfl
      rfl
    · cases hd

theorem dupDiags_eq_of_dup {tids : List ℤ} (h : ¬ tids.Nodup) :
    ∃ c, 0 < c ∧ dupDiags tids = [Diag.duplicateTaxids c] := by
  have hne : tids ≠ [] := by
    rintro rfl
    exact h List.nodup_nil
  have hlt : tids.dedup.length < tids.length := by
    have hsub := List.dedup_sublist tids
    have hle := hsub.length_le
    rcases lt_or_eq_of_le hle with hlt | heq
    · exact hlt
    · exact absurd (by rw [← hsub.eq_of_length heq]; exact List.nodup_dedup tids) h
  refine ⟨tids.length - tids.dedup.length, by omega, ?_⟩
  unfold dupDiags
  rw [if_neg hne, if_pos (by omega)]

theorem dupDiags_of_nodup {tids : List ℤ} (h : tids.Nodup) : dupDiags tids = [] := by
  unfold dupDiags
  split
  · rfl
  · rw [if_neg]
    rw [List.dedup_eq_self.mpr h]
    omega

/-- Claim C9: whenever the TAXIDs collected from the data rows contain a
repetition (two or more data rows share the same parsed TAXID), the
diagnostic list contains exactly one duplicate-identifier diagnostic, and
that diagnostic reports a positive count — never one diagnostic per
duplicated row. -/
theorem C9_duplicate_flagged_once (lines : List String)
    (hdup : ¬ (collectedTaxids lines).Nodup) :
    (validate_bioboxes lines).2.countP isDupDiag = 1 ∧
    ∃ c, 0 < c ∧ Diag.duplicateTaxids c ∈ (validate_bioboxes lines).2 := by
  have hcne : collectedTaxids lines ≠ [] := by
    rintro h0
    rw [h0] at hdup
    exact hdup List.nodup_nil
  have hdne : (parseAll lines).data ≠ [] := by
    intro h0
    apply hcne
    unfold collectedTaxids
    rw [h0]
    rfl
  have hlne : lines ≠ [] := by
    rintro rfl
    exact hdne rfl
  obtain ⟨ch, hch⟩ := parseAll_colHeader_of_data hdne
  obtain ⟨c, hc, hdq⟩ := dupDiags_eq_of_dup hdup
  have hdata : dataDiags ((parseAll lines).headers "Ranks") (parseAll lines).data =
      ((parseAll lines).data.map (rowDiags ((parseAll lines).headers "Ranks"))).flatten ++
        sumDiags ((parseAll lines).data.filterMap rowPct?) ++
        dupDiags (collectedTaxids lines) := by
    unfold dataDiags
    rw [if_neg hdne]
    rfl
  have hflat : ∀ d ∈ ((parseAll lines).data.map
      (rowDiags ((parseAll lines).headers "Ranks"))).flatten, isDupDiag d = false := by
    intro d hd
    rw [List.mem_flatten] at hd
    obtain ⟨l, hl, hdl⟩ := hd
    obtain ⟨p, _, rfl⟩ := List.mem_map.mp hl
    exact (rowDiags_shape _ p d hdl).1
  simp only [validate_bioboxes, if_neg hlne, hch]
  constructor
  · simp only [List.countP_append, hdata, hdq]
    rw [countP_zero_of_false (parseAll_errs_not_dup lines),
        countP_zero_of_false (headerDiags_not_dup (parseAll lines).headers),
        countP_zero_of_false (columnDiags_not_dup ch),
        countP_zero_of_false hflat,
        countP_zero_of_false (sumDiags_not_dup _)]
    rfl
  · refine ⟨c, hc, ?_⟩
    simp only [List.mem_append, hdata, hdq]
    right
    right
    exact List.mem_singleton_self _

/-- Witness for C9 at a crafted file whose two data rows share TAXID 1. -/
theorem C9_witness :
    ¬ (collectedTaxids ["@SampleID:s", "@Version:0.9.1",
        "@Ranks:superkingdom|phylum|class|order|family|genus|species|strain",
        "@TaxonomyID:NCBI", "@@TAXID\tRANK\tTAXPATH\tTAXPATHSN\tPERCENTAGE",
        "1\tspecies\t1\ttaxid_1\t50.0", "1\tspecies\t1\ttaxid_1\t50.0"]).Nodup ∧
    (validate_bioboxes ["@SampleID:s", "@Version:0.9.1",
        "@Ranks:superkingdom|phylum|class|order|family|genus|species|strain",
        "@TaxonomyID:NCBI", "@@TAXID\tRANK\tTAXPATH\tTAXPATHSN\tPERCENTAGE",
        "1\tspecies\t1\ttaxid_1\t50.0", "1\tspecies\t1\ttaxid_1\t50.0"]).2.countP
      isDupDiag = 1 := by
  have hdup : ¬ (collectedTaxids ["@SampleID:s", "@Version:0.9.1",
      "@Ranks:superkingdom|phylum|class|order|family|genus|species|strain",
      "@TaxonomyID:NCBI", "@@TAXID\tRANK\tTAXPATH\tTAXPATHSN\tPERCENTAGE",
      "1\tspecies\t1\ttaxid_1\t50.0", "1\tspecies\t1\ttaxid_1\t50.0"]).Nodup := by
    decide
  exact ⟨hdup, (C9_duplicate_flagged_once _ hdup).1⟩

/-! ### Path-identifier consistency (C7) -/

theorem getLast?_map' {α β : Type} (f : α → β) :
    ∀ (l : List α), (l.map f).getLast? = l.getLast?.map f
  | [] => rfl
  | [a] => rfl
  | a :: b :: t => by
    rw [List.map_cons, List.map_cons, List.getLast?_cons_cons, List.getLast?_cons_cons]
    rw [← List.map_cons]
    exact getLast?_map' f (b :: t)

theorem strOfInt_chars (i : ℤ) : ∀ c ∈ (strOfInt i).data, c.isDigit = true ∨ c = '-' := by
  unfold strOfInt
  split
  · intro c hc
    rw [data_append] at hc
    rcases List.mem_append.mp hc with hc | hc
    · right
      simpa using hc
    · exact Or.inl (strOfNat_all_digits _ c hc)
  · exact fun c hc => Or.inl (strOfNat_all_digits _ c hc)

theorem strOfInt_no_pipe (i : ℤ) : '|' ∉ (strOfInt i).data := by
  intro hm
  rcases strOfInt_chars i '|' hm with h | h
  · simp at h
  · cases h

theorem strOfInt_ne_empty (i : ℤ) : (strOfInt i).data ≠ [] := by
  unfold strOfInt
  split
  · rw [data_append]
    simp
  · exact strOfNat_ne_nil _

theorem get_taxonomy_info_last {ncbi : Option Ncbi}
    (HO : ∀ o, ncbi = some o → ∀ t l, o.lineage t = some l → l.getLast? = some t)
    (taxid : ℤ) : ((get_taxonomy_info taxid ncbi).2.1).getLast? = some taxid := by
  unfold get_taxonomy_info degradedInfo
  cases ncbi with
  | none => rfl
  | some o =>
    by_cases hf : o.fails taxid
    · simp [hf]
    · simp only [hf, Bool.false_eq_true, if_false]
      cases hl : o.lineage taxid with
      | none => rfl
      | some l => exact HO o rfl taxid l hl

theorem mem_finalResults_inv {ncbi : Option Ncbi} {rows : List Row} {rec : TaxonRecord}
    (h : rec ∈ finalResults ncbi rows) :
    ∃ (p : String × ℚ) (taxid : ℤ), pyInt? p.1 = some taxid ∧ rec.taxid = taxid ∧
      rec.taxpath = (get_taxonomy_info taxid ncbi).2.1 ∧
      rec.taxpathsn = (get_taxonomy_info taxid ncbi).2.2 ∧
      rec.rank ∈ valid_ranks := by
  obtain ⟨r0, hr0, htid, hrank, htp, htpsn⟩ := mem_renormalize h
  obtain ⟨p, _, hpr⟩ := List.mem_filterMap.mp hr0
  obtain ⟨taxid, hpt, htid0, htp0, htpsn0, _, hrk, _⟩ := processRow_inv hpr
  exact ⟨p, taxid, hpt, htid.trans htid0, htp.trans htp0, htpsn.trans htpsn0,
    hrank ▸ hrk⟩

theorem rowDiag_mem_validate {lines : List String} {ln : ℕ} {line : String} {d : Diag}
    (hmem : (ln, line) ∈ (parseAll lines).data)
    (hd : d ∈ rowDiags ((parseAll lines).headers "Ranks") (ln, line)) :
    d ∈ (validate_bioboxes lines).2 := by
  have hdne : (parseAll lines).data ≠ [] := List.ne_nil_of_mem hmem
  have hlne : lines ≠ [] := by
    rintro rfl
    exact hdne rfl
  obtain ⟨ch, hch⟩ := parseAll_colHeader_of_data hdne
  simp only [validate_bioboxes, if_neg hlne, hch]
  simp only [List.mem_append]
  right
  unfold dataDiags
  rw [if_neg hdne]
  simp only [List.mem_append]
  left
  left
  exact List.mem_flatten.mpr ⟨_, List.mem_map_of_mem _ hmem, hd⟩

theorem pyInt?_empty : pyInt? "" = none := by decide

/-- Claim C7 (amended): (1) provided the taxonomy oracle honours the
Lookup Adapter contract (every lineage it returns ends in the queried
identifier), every record emitted by the converter has a TAXPATH whose
final element equals its TAXID — both as the id list and as the final
pipe-delimited element of the serialized TAXPATH string; (2) for every
data row of a validated file with at least five fields and a NONEMPTY
TAXPATH whose final pipe-delimited element does not agree with the TAXID
as an integer, the validator emits a diagnostic for that row.  (An empty
TAXPATH field silently escapes all TAXPATH checks — the counterexample.) -/
theorem C7_taxpath_consistency (ncbi : Option Ncbi) (rows : List Row)
    (HO : ∀ o, ncbi = some o → ∀ t l, o.lineage t = some l → l.getLast? = some t)
    (lines : List String) (ln : ℕ) (line t r tp tpsn pc : String) (rest : List String)
    (hmem : (ln, line) ∈ (parseAll lines).data)
    (hsp : splitChar '\t' line = t :: r :: tp :: tpsn :: pc :: rest)
    (htp : tp ≠ "")
    (hmis : ¬ ∃ lastp a b, (splitChar '|' tp).getLast? = some lastp ∧
        pyInt? lastp = some a ∧ pyInt? t = some b ∧ a = b) :
    (∀ rec ∈ finalResults ncbi rows,
      rec.taxpath.getLast? = some rec.taxid ∧
      (splitChar '|' (joinSep '|' (rec.taxpath.map strOfInt))).getLast? =
        some (strOfInt rec.taxid)) ∧
    (∃ d ∈ (validate_bioboxes lines).2, d.lineNo = some ln) := by
  constructor
  · intro rec hrec
    obtain ⟨p, taxid, _, htid, htpath, _, _⟩ := mem_finalResults_inv hrec
    have hlast : rec.taxpath.getLast? = some rec.taxid := by
      rw [htpath, htid]
      exact get_taxonomy_info_last HO taxid
    refine ⟨hlast, ?_⟩
    have hne : rec.taxpath ≠ [] := by
      rintro h0
      rw [h0] at hlast
      cases hlast
    rw [splitChar_joinSep (by simpa using hne)
      (by
        intro a ha
        obtain ⟨i, _, rfl⟩ := List.mem_map.mp ha
        exact strOfInt_no_pipe i)]
    rw [getLast?_map' strOfInt rec.taxpath, hlast]
    rfl
  · cases hT : pyInt? t with
    | none =>
      refine ⟨Diag.taxidNotInt ln t, rowDiag_mem_validate hmem ?_, rfl⟩
      simp only [rowDiags, hsp]
      simp only [List.mem_append]
      left
      left
      left
      left
      simp only [taxidDiags, hT]
      exact List.mem_singleton_self _
    | some b =>
      have htne : t ≠ "" := by
        rintro rfl
        rw [pyInt?_empty] at hT
        cases hT
      cases hF : (splitChar '|' tp).find? (fun q => (pyInt? q).isNone) with
      | some bad =>
        refine ⟨Diag.taxpathNonInt ln bad, rowDiag_mem_validate hmem ?_, rfl⟩
        simp only [rowDiags, hsp]
        simp only [List.mem_append]
        left
        left
        right
        simp only [taxpathDiags, if_neg htp, hF]
        simp only [List.mem_append]
        left
        exact List.mem_singleton_self _
      | none =>
        obtain ⟨lastp, hlastp⟩ : ∃ lastp, (splitChar '|' tp).getLast? = some lastp := by
          cases hgl : (splitChar '|' tp).getLast? with
          | none =>
            exfalso
            have h0 := List.getLast?_eq_none_iff.mp hgl
            have h1 : splitCharL '|' tp.data ≠ [] := splitCharL_ne_nil '|' tp.data
            unfold splitChar at h0
            exact h1 (List.map_eq_nil_iff.mp h0)
          | some x => exact ⟨x, rfl⟩
        have hlastmem : lastp ∈ splitChar '|' tp := by
          obtain ⟨hne0, heq⟩ := List.mem_getLast?_eq_getLast (by rw [hlastp]; rfl)
          rw [heq]
          exact List.getLast_mem hne0
        obtain ⟨a, ha⟩ : ∃ a, pyInt? lastp = some a := by
          have h1 := List.find?_eq_none.mp hF lastp hlastmem
          cases hpl : pyInt? lastp with
          | none => exact absurd (by rw [hpl]; rfl) h1
          | some a => exact ⟨a, rfl⟩
        have hab : a ≠ b := fun he => hmis ⟨lastp, a, b, hlastp, ha, hT, he⟩
        refine ⟨Diag.taxpathMismatch ln lastp t, rowDiag_mem_validate hmem ?_, rfl⟩
        simp only [rowDiags, hsp]
        simp only [List.mem_append]
        left
        left
        right
        simp only [taxpathDiags, if_neg htp, hF, if_neg htne, hlastp, ha, hT]
        simp only [List.nil_append]
        rw [if_pos hab]
        exact List.mem_singleton_self _

/-- Witness for C7: the converter side against the well-behaved oracle,
and the validator side at a file whose data row has TAXPATH "2|7" but
TAXID "5". -/
theorem C7_witness :
    (∀ rec ∈ finalResults (some speciesNcbi) rowsDupId,
      rec.taxpath.getLast? = some rec.taxid ∧
      (splitChar '|' (joinSep '|' (rec.taxpath.map strOfInt))).getLast? =
        some (strOfInt rec.taxid)) ∧
    (∃ d ∈ (validate_bioboxes c7wlines).2, d.lineNo = some 6) := by
  refine C7_taxpath_consistency (some speciesNcbi) rowsDupId ?_ c7wlines 6
    "5\tspecies\t2|7\ta|b\t100.0" "5" "species" "2|7" "a|b" "100.0" [] ?_ ?_ ?_ ?_
  · intro o ho t l hl
    obtain rfl := Option.some.inj ho
    obtain rfl := Option.some.inj hl
    rfl
  · decide
  · decide
  · decide
  · rintro ⟨lastp, a, b, hl, ha, hb, he⟩
    rw [show (splitChar '|' "2|7").getLast? = some "7" from by decide] at hl
    obtain rfl := (Option.some.inj hl).symm
    rw [show pyInt? "7" = some 7 from by decide] at ha
    obtain rfl := (Option.some.inj ha).symm
    rw [show pyInt? "5" = some 5 from by decide] at hb
    obtain rfl := (Option.some.inj hb).symm
    exact absurd he (by decide)

theorem pyFloat?_parts {s a b : String}
    (hstrip : pyStrip s = s)
    (hm : startsWithL ['-'] s.data = false) (hp : startsWithL ['+'] s.data = false)
    (hsp : splitChar '.' s = [a, b])
    (hcond : (a.data ≠ [] ∨ b.data ≠ []) ∧ a.data.all Char.isDigit = true ∧
      b.data.all Char.isDigit = true) :
    pyFloat? s = some ((parseNatL a.data : ℚ) +
      (parseNatL b.data : ℚ) / (10 : ℚ) ^ b.data.length) := by
  simp only [pyFloat?, hstrip, hm, hp, Bool.false_eq_true, if_false]
  simp only [pyFloatMag, hsp]
  rw [if_pos hcond]

theorem pyFloat?_fifty : pyFloat? "50.0" = some 50 := by
  have h := pyFloat?_parts (s := "50.0") (a := "50") (b := "0")
    (by decide) (by decide) (by decide) (by decide) (by decide)
  rw [h]
  rw [show parseNatL "50".data = 50 from by decide,
      show parseNatL "0".data = 0 from by decide,
      show ("0" : String).data.length = 1 from by decide]
  norm_num

theorem pctDiags_fifty (ln : ℕ) : pctDiags ln "50.0" = [] := by
  simp only [pctDiags, pyFloat?_fifty]
  rw [if_neg]
  norm_num

/-- Counterexample to C7 as stated: a file whose two data rows have an
empty TAXPATH — so the final pipe-delimited element of TAXPATH is "" and
does not equal the TAXID — yet the validator reports the file valid with
an empty diagnostic list (the `if taxpath:` guard skips every TAXPATH
check for an empty field). -/
theorem C7_counterexample :
    validate_bioboxes c7lines = (true, []) ∧
    (6, "5\tspecies\t\t\t50.0") ∈ (parseAll c7lines).data ∧
    splitChar '\t' "5\tspecies\t\t\t50.0" = ["5", "species", "", "", "50.0"] ∧
    (splitChar '|' "").getLast? = some "" ∧
    ("" : String) ≠ "5" ∧ pyInt? "" = none ∧ pyInt? "5" = some 5 := by
  have h3 : (parseAll c7lines).data =
      [(6, "5\tspecies\t\t\t50.0"), (7, "6\tspecies\t\t\t50.0")] := by decide
  have hrv : (parseAll c7lines).headers "Ranks" =
      some "superkingdom|phylum|class|order|family|genus|species|strain" := by decide
  have hrow : ∀ ln : ℕ, ∀ t : String,
      taxidDiags ln t ++
        rankDiags (some "superkingdom|phylum|class|order|family|genus|species|strain") ln
          "species" ++ taxpathDiags ln t "" ++ tpsnDiags ln "" "" ++ pctDiags ln "50.0" =
        taxidDiags ln t := by
    intro ln t
    rw [show rankDiags (some "superkingdom|phylum|class|order|family|genus|species|strain")
        ln "species" = [] from by
      simp only [rankDiags]
      rw [if_pos (Or.inl (by decide))]]
    rw [show taxpathDiags ln t "" = [] from by simp [taxpathDiags]]
    rw [show tpsnDiags ln "" "" = [] from by simp [tpsnDiags]]
    rw [pctDiags_fifty]
    simp
  have hrow6 : rowDiags (some "superkingdom|phylum|class|order|family|genus|species|strain")
      (6, "5\tspecies\t\t\t50.0") = [] := by
    simp only [rowDiags, show splitChar '\t' "5\tspecies\t\t\t50.0"
      = ["5", "species", "", "", "50.0"] from by decide]
    rw [hrow 6 "5"]
    decide
  have hrow7 : rowDiags (some "superkingdom|phylum|class|order|family|genus|species|strain")
      (7, "6\tspecies\t\t\t50.0") = [] := by
    simp only [rowDiags, show splitChar '\t' "6\tspecies\t\t\t50.0"
      = ["6", "species", "", "", "50.0"] from by decide]
    rw [hrow 7 "6"]
    decide
  have hp6 : rowPct? (6, "5\tspecies\t\t\t50.0") = some 50 := by
    simp only [rowPct?, show splitChar '\t' "5\tspecies\t\t\t50.0"
      = ["5", "species", "", "", "50.0"] from by decide]
    exact pyFloat?_fifty
  have hp7 : rowPct? (7, "6\tspecies\t\t\t50.0") = some 50 := by
    simp only [rowPct?, show splitChar '\t' "6\tspecies\t\t\t50.0"
      = ["6", "species", "", "", "50.0"] from by decide]
    exact pyFloat?_fifty
  have hsum : sumDiags [(50 : ℚ), 50] = [] := by
    simp only [sumDiags]
    rw [if_neg (by simp)]
    rw [if_neg]
    simp only [List.sum_cons, List.sum_nil]
    norm_num
  have hdd : dataDiags ((parseAll c7lines).headers "Ranks") (parseAll c7lines).data = [] := by
    rw [hrv, h3]
    unfold dataDiags
    rw [if_neg (by simp)]
    rw [show List.filterMap rowPct?
        [((6 : ℕ), "5\tspecies\t\t\t50.0"), (7, "6\tspecies\t\t\t50.0")] = [50, 50] from by
      simp only [List.filterMap_cons, hp6, hp7, List.filterMap_nil]]
    rw [hsum]
    rw [show dupDiags (List.filterMap rowTaxid?
        [((6 : ℕ), "5\tspecies\t\t\t50.0"), (7, "6\tspecies\t\t\t50.0")]) = [] from by decide]
    simp [hrow6, hrow7]
  have hfinal : validate_bioboxes c7lines = (true, []) := by
    simp only [validate_bioboxes, if_neg (show ¬ c7lines = [] from by decide),
      show (parseAll c7lines).colHeader =
        some "TAXID\tRANK\tTAXPATH\tTAXPATHSN\tPERCENTAGE" from by decide]
    rw [show (parseAll c7lines).errs = [] from by decide]
    rw [show headerDiags (parseAll c7lines).headers = [] from by decide]
    rw [show columnDiags "TAXID\tRANK\tTAXPATH\tTAXPATHSN\tPERCENTAGE" = [] from by decide]
    rw [hdd]
    rfl
  refine ⟨hfinal, ?_, by decide, by decide, by decide, by decide, by decide⟩
  rw [h3]
  exact List.mem_cons_self _ _

/-! ### Renormalization (C2) -/

theorem validRows_nil : validRows [] = [] := rfl

theorem validRows_cons_pos (s : String) (c : ℚ) (rest : List Row) (hc : 0 < c) :
    validRows (⟨some s, some c⟩ :: rest) = (s, c) :: validRows rest := by
  unfold validRows
  rw [List.filterMap_cons]
  dsimp only
  rw [if_pos hc]

theorem processRow_concrete (o : Ncbi) (total : ℚ) (s : String) (c : ℚ) (t : ℤ)
    (rk : String) (lin : List ℤ) (nm : List String)
    (hs : pyInt? s = some t)
    (hinfo : get_taxonomy_info t (some o) = (rk, lin, nm))
    (hrk : rk ∈ valid_ranks) (hmap : lookupMapping rk = none) (htot : 0 < total) :
    processRow (some o) total (s, c) =
      some ⟨t, rk, lin, nm, round6 (c / total * 100)⟩ := by
  rw [processRow_eq _ _ _ t hs, hinfo]
  dsimp only
  rw [if_pos (Or.inl hrk), hmap, if_pos htot]
  rfl

theorem processRow_droppedRank (o : Ncbi) (total : ℚ) (s : String) (c : ℚ) (t : ℤ)
    (rk : String) (lin : List ℤ) (nm : List String)
    (hs : pyInt? s = some t)
    (hinfo : get_taxonomy_info t (some o) = (rk, lin, nm))
    (hrk : rk ∉ valid_ranks) (hmap : lookupMapping rk = none) :
    processRow (some o) total (s, c) = none := by
  rw [processRow_eq _ _ _ t hs, hinfo]
  dsimp only
  rw [if_neg]
  rintro (h | h)
  · exact hrk h
  · rw [hmap] at h
    cases h

theorem renormalize_of_needed {rs : List TaxonRecord} (h : renormNeeded rs = true) :
    renormalize rs = rs.map
      (fun r => { r with pct := round6 (r.pct / totalPercentage rs * 100) }) := by
  unfold renormalize
  rw [h]
  rfl

theorem renormalize_of_not_needed {rs : List TaxonRecord} (h : renormNeeded rs = false) :
    renormalize rs = rs := by
  unfold renormalize
  rw [h]
  rfl

/-- Claim C2 (amended): suppose the conversion emits at least one record
and the stored (6-decimal) percentages have a positive sum t.  Then:
renormalization runs exactly when t is not within 0.01 of 100; when it
runs, the re-formatted percentages sum to 100 up to the 6-decimal rounding
of each record (at most 5·10⁻⁷ per record); when it is skipped the sum is
unchanged (hence within 0.01 of 100).  The positivity proviso is forced by
the counterexample: when every stored percentage rounds to 0.000000 the
guard `total_percentage > 0` also skips renormalization and the output sum
is 0. -/
theorem C2_renormalization (ncbi : Option Ncbi) (rows : List Row)
    (_hne : preResults ncbi rows ≠ [])
    (hpos : 0 < totalPercentage (preResults ncbi rows)) :
    (renormNeeded (preResults ncbi rows) = true ↔
      1 / 100 < |totalPercentage (preResults ncbi rows) - 100|) ∧
    (1 / 100 < |totalPercentage (preResults ncbi rows) - 100| →
      |totalPercentage (finalResults ncbi rows) - 100| ≤
        ((preResults ncbi rows).length : ℚ) / 2000000) ∧
    (|totalPercentage (preResults ncbi rows) - 100| ≤ 1 / 100 →
      totalPercentage (finalResults ncbi rows) =
        totalPercentage (preResults ncbi rows)) := by
  have hiff : renormNeeded (preResults ncbi rows) = true ↔
      1 / 100 < |totalPercentage (preResults ncbi rows) - 100| := by
    unfold renormNeeded
    rw [decide_eq_true_eq]
    exact ⟨fun h => h.2, fun h => ⟨hpos, h⟩⟩
  refine ⟨hiff, ?_, ?_⟩
  · intro hgap
    set rs := preResults ncbi rows with hrs
    set t := totalPercentage rs with ht
    have hren := renormalize_of_needed (hiff.mpr hgap)
    have htp : totalPercentage (finalResults ncbi rows) =
        (((rs.map (fun r => r.pct)).map (fun x => x / t * 100)).map round6).sum := by
      unfold finalResults
      rw [← hrs, hren]
      unfold totalPercentage
      rw [List.map_map, List.map_map, List.map_map]
      rfl
    rw [htp]
    have hq : ((rs.map (fun r => r.pct)).map (fun x => x / t * 100)).sum = 100 := by
      rw [sum_map_div_mul]
      have : (rs.map (fun r => r.pct)).sum = t := rfl
      rw [this]
      field_simp
    have hb := abs_sum_map_round6_sub ((rs.map (fun r => r.pct)).map (fun x => x / t * 100))
    rw [hq] at hb
    simpa [List.length_map] using hb
  · intro hclose
    have hnot : renormNeeded (preResults ncbi rows) = false := by
      cases hrn : renormNeeded (preResults ncbi rows)
      · rfl
      · exact absurd (hiff.mp hrn) (not_lt.mpr hclose)
    unfold finalResults
    rw [renormalize_of_not_needed hnot]

theorem round6_tiny : round6 ((1 : ℚ) / 1000000002 * 100) = 0 := by
  unfold round6
  rw [show ⌊(1 : ℚ) / 1000000002 * 100 * 1000000 + 1 / 2⌋ = 0 from by
    rw [Int.floor_eq_zero_iff]
    constructor <;> norm_num]
  norm_num

theorem validRows_tiny : validRows rowsTinyPct =
    [("1", 1), ("2", 1), ("3", 1000000000)] := by
  unfold rowsTinyPct
  rw [validRows_cons_pos _ _ _ (by norm_num), validRows_cons_pos _ _ _ (by norm_num),
      validRows_cons_pos _ _ _ (by norm_num), validRows_nil]

theorem totalCount_tiny : totalCount rowsTinyPct = 1000000002 := by
  unfold totalCount
  rw [validRows_tiny]
  simp only [List.map_cons, List.map_nil, List.sum_cons, List.sum_nil]
  norm_num

theorem preResults_tiny : preResults (some mixedNcbi) rowsTinyPct =
    [⟨1, "species", [1], ["taxid_1"], 0⟩, ⟨2, "species", [2], ["taxid_2"], 0⟩] := by
  unfold preResults
  rw [validRows_tiny, totalCount_tiny]
  rw [List.filterMap_cons, List.filterMap_cons, List.filterMap_cons, List.filterMap_nil]
  rw [processRow_concrete mixedNcbi 1000000002 "1" 1 1 "species" [1] ["taxid_1"]
      (by decide) (by decide) (by decide) (by decide) (by norm_num)]
  rw [processRow_concrete mixedNcbi 1000000002 "2" 1 2 "species" [2] ["taxid_2"]
      (by decide) (by decide) (by decide) (by decide) (by norm_num)]
  rw [processRow_droppedRank mixedNcbi 1000000002 "3" 1000000000 3 "no rank" [3]
      ["taxid_3"] (by decide) (by decide) (by decide) (by decide)]
  rw [round6_tiny]

theorem totalPercentage_tiny :
    totalPercentage (preResults (some mixedNcbi) rowsTinyPct) = 0 := by
  rw [preResults_tiny]
  unfold totalPercentage
  simp

theorem renormNeeded_tiny : renormNeeded (preResults (some mixedNcbi) rowsTinyPct) = false := by
  unfold renormNeeded
  rw [totalPercentage_tiny]
  norm_num

/-- Counterexample to C2 as stated: an input with two emitted records
(counts 1 and 1) dominated by a dropped row (count 10⁹) stores both
percentages as 0.000000; the pre-renormalization sum is 0, which is not
within 0.01 of 100, yet renormalization is skipped (the `total_percentage
> 0` guard), and the written percentages sum to 0, not 100 ± 0.01. -/
theorem C2_counterexample :
    preResults (some mixedNcbi) rowsTinyPct ≠ [] ∧
    renormNeeded (preResults (some mixedNcbi) rowsTinyPct) = false ∧
    1 / 100 < |totalPercentage (preResults (some mixedNcbi) rowsTinyPct) - 100| ∧
    totalPercentage (finalResults (some mixedNcbi) rowsTinyPct) = 0 ∧
    ¬ |totalPercentage (finalResults (some mixedNcbi) rowsTinyPct) - 100| ≤ 1 / 100 := by
  have hfin : totalPercentage (finalResults (some mixedNcbi) rowsTinyPct) = 0 := by
    unfold finalResults
    rw [renormalize_of_not_needed renormNeeded_tiny]
    exact totalPercentage_tiny
  refine ⟨?_, renormNeeded_tiny, ?_, hfin, ?_⟩
  · rw [preResults_tiny]
    simp
  · rw [totalPercentage_tiny]
    norm_num
  · rw [hfin]
    norm_num

theorem round6_fifty : round6 (50 : ℚ) = 50 := by
  unfold round6
  rw [show ⌊(50 : ℚ) * 1000000 + 1 / 2⌋ = 50000000 from by
    rw [Int.floor_eq_iff]
    norm_num]
  norm_num

theorem validRows_fifty : validRows rowsFifty = [("1", 1), ("2", 1)] := by
  unfold rowsFifty
  rw [validRows_cons_pos _ _ _ (by norm_num), validRows_cons_pos _ _ _ (by norm_num),
      validRows_nil]

theorem totalCount_fifty : totalCount rowsFifty = 2 := by
  unfold totalCount
  rw [validRows_fifty]
  simp only [List.map_cons, List.map_nil, List.sum_cons, List.sum_nil]
  norm_num

theorem preResults_fifty : preResults (some speciesNcbi) rowsFifty =
    [⟨1, "species", [1], ["taxid_1"], 50⟩, ⟨2, "species", [2], ["taxid_2"], 50⟩] := by
  unfold preResults
  rw [validRows_fifty, totalCount_fifty]
  rw [List.filterMap_cons, List.filterMap_cons, List.filterMap_nil]
  rw [processRow_concrete speciesNcbi 2 "1" 1 1 "species" [1] ["taxid_1"]
      (by decide) (by decide) (by decide) (by decide) (by norm_num)]
  rw [processRow_concrete speciesNcbi 2 "2" 1 2 "species" [2] ["taxid_2"]
      (by decide) (by decide) (by decide) (by decide) (by norm_num)]
  rw [show (1 : ℚ) / 2 * 100 = 50 from by norm_num, round6_fifty]

theorem totalPercentage_fifty :
    totalPercentage (preResults (some speciesNcbi) rowsFifty) = 100 := by
  rw [preResults_fifty]
  unfold totalPercentage
  simp only [List.map_cons, List.map_nil, List.sum_cons, List.sum_nil]
  norm_num

/-- Witness for C2 at an input whose two emitted percentages are exactly
50 each: the stored sum is exactly 100, renormalization is skipped, and
the sum is unchanged. -/
theorem C2_witness :
    preResults (some speciesNcbi) rowsFifty ≠ [] ∧
    (0 : ℚ) < totalPercentage (preResults (some speciesNcbi) rowsFifty) ∧
    totalPercentage (finalResults (some speciesNcbi) rowsFifty) =
      totalPercentage (preResults (some speciesNcbi) rowsFifty) := by
  have h1 : preResults (some speciesNcbi) rowsFifty ≠ [] := by
    rw [preResults_fifty]
    simp
  have h2 : (0 : ℚ) < totalPercentage (preResults (some speciesNcbi) rowsFifty) := by
    rw [totalPercentage_fifty]
    norm_num
  refine ⟨h1, h2, ?_⟩
  exact (C2_renormalization (some speciesNcbi) rowsFifty h1 h2).2.2
    (by rw [totalPercentage_fifty]; norm_num)

/-! ### Parsing the serialized output (towards C1) -/

theorem parseStep_header_line (st : PSt) (p : ℕ × String) (k v : String)
    (hstrip : pyStrip p.2 = p.2) (hne : ¬ p.2 = "")
    (h2 : pyStartsWith "@@" p.2 = false) (h1 : pyStartsWith "@" p.2 = true)
    (hph : parseHeaderLine p.2 = some (k, v)) :
    parseStep st p = { st with headers := updateH st.headers k v } := by
  simp only [parseStep, hstrip, hne, h2, h1, hph, Bool.false_eq_true, if_false, if_true,
    ite_false, ite_true]

theorem parseStep_colHeader_line (st : PSt) (p : ℕ × String) (ch : String)
    (hstrip : pyStrip p.2 = p.2) (hne : ¬ p.2 = "")
    (h2 : pyStartsWith "@@" p.2 = true) (hch : pyStrip (strDrop 2 p.2) = ch) :
    parseStep st p = { st with colHeader := some ch, inData := true } := by
  simp only [parseStep, hstrip, hne, h2, hch, if_true, ite_true, ite_false]

theorem parseStep_data_line (st : PSt) (p : ℕ × String)
    (hstrip : pyStrip p.2 = p.2) (hne : ¬ p.2 = "")
    (h2 : pyStartsWith "@@" p.2 = false) (h1 : pyStartsWith "@" p.2 = false)
    (hin : st.inData = true) :
    parseStep st p = { st with data := st.data ++ [(p.1, p.2)] } := by
  simp only [parseStep, hstrip, hne, h2, h1, hin, Bool.false_eq_true, if_false, if_true,
    ite_false, ite_true]

theorem foldl_parseStep_data (ps : List (ℕ × String)) :
    ∀ (st : PSt), st.inData = true →
    (∀ p ∈ ps, pyStrip p.2 = p.2 ∧ ¬ p.2 = "" ∧ pyStartsWith "@@" p.2 = false ∧
      pyStartsWith "@" p.2 = false) →
    ps.foldl parseStep st = { st with data := st.data ++ ps } := by
  induction ps with
  | nil => intro st _ _; simp
  | cons p t ih =>
    intro st hin hall
    obtain ⟨hs, hn, h2, h1⟩ := hall p (List.mem_cons_self p t)
    rw [List.foldl_cons, parseStep_data_line st p hs hn h2 h1 hin]
    rw [ih { st with data := st.data ++ [(p.1, p.2)] } hin
      (fun q hq => hall q (List.mem_cons_of_mem _ hq))]
    simp

theorem splitChar_tab_five (A B C D E : String)
    (hA : '\t' ∉ A.data) (hB : '\t' ∉ B.data) (hC : '\t' ∉ C.data)
    (hD : '\t' ∉ D.data) (hE : '\t' ∉ E.data) :
    splitChar '\t' (A ++ "\t" ++ B ++ "\t" ++ C ++ "\t" ++ D ++ "\t" ++ E) =
      [A, B, C, D, E] := by
  unfold splitChar
  rw [show (A ++ "\t" ++ B ++ "\t" ++ C ++ "\t" ++ D ++ "\t" ++ E).data
      = A.data ++ '\t' :: (B.data ++ '\t' :: (C.data ++ '\t' :: (D.data ++ '\t' :: E.data)))
      from by
    repeat rw [data_append]
    simp]
  rw [splitCharL_append_sep hA, splitCharL_append_sep hB, splitCharL_append_sep hC,
      splitCharL_append_sep hD, splitCharL_no_sep hE]
  simp [mk_data]

theorem strOfInt_no_tab (i : ℤ) : '\t' ∉ (strOfInt i).data := by
  intro hm
  rcases strOfInt_chars i '\t' hm with h | h
  · simp at h
  · cases h

theorem valid_rank_no_tab {r : String} (h : r ∈ valid_ranks) : '\t' ∉ r.data := by
  fin_cases h <;> decide

theorem joinSepL_chars {sep : Char} : ∀ {L : List (List Char)} {c : Char},
    c ∈ joinSepL sep L → c = sep ∨ ∃ l ∈ L, c ∈ l := by
  intro L
  induction L with
  | nil => intro c hc; cases hc
  | cons a t ih =>
    intro c hc
    cases t with
    | nil =>
      exact Or.inr ⟨a, List.mem_singleton_self a, hc⟩
    | cons b t2 =>
      rw [show joinSepL sep (a :: b :: t2) = a ++ sep :: joinSepL sep (b :: t2) from rfl] at hc
      rcases List.mem_append.mp hc with hc | hc
      · exact Or.inr ⟨a, List.mem_cons_self a _, hc⟩
      · rcases List.mem_cons.mp hc with rfl | hc
        · exact Or.inl rfl
        · rcases ih hc with h | ⟨l, hl, hcl⟩
          · exact Or.inl h
          · exact Or.inr ⟨l, List.mem_cons_of_mem a hl, hcl⟩

theorem joinSep_not_mem {sep c : Char} (hc : c ≠ sep) {parts : List String}
    (h : ∀ s ∈ parts, c ∉ s.data) : c ∉ (joinSep sep parts).data := by
  intro hm
  unfold joinSep at hm
  rw [show (String.mk (joinSepL sep (parts.map String.data))).data
      = joinSepL sep (parts.map String.data) from rfl] at hm
  rcases joinSepL_chars hm with h1 | ⟨l, hl, hcl⟩
  · exact hc h1
  · obtain ⟨s, hs, rfl⟩ := List.mem_map.mp hl
    exact h s hs hcl

theorem format6_no_tab (m : ℕ) : '\t' ∉ (format6 ((m : ℚ) / 1000000)).data := by
  intro hm
  rcases format6_all_digit_or_dot m '\t' hm with h | h
  · simp at h
  · cases h

theorem strOfInt_head (i : ℤ) : ∃ c t, (strOfInt i).data = c :: t ∧
    (c.isDigit = true ∨ c = '-') := by
  cases hd : (strOfInt i).data with
  | nil => exact absurd hd (strOfInt_ne_empty i)
  | cons c t =>
    refine ⟨c, t, rfl, ?_⟩
    exact strOfInt_chars i c (by rw [hd]; exact List.mem_cons_self c t)

theorem format6_last (m : ℕ) : ∃ c, ((format6 ((m : ℚ) / 1000000)).data).getLast? = some c ∧
    c.isDigit = true := by
  rw [format6_data]
  have hne : (strOfNat (m % 1000000)).data ≠ [] := strOfNat_ne_nil _
  rw [List.getLast?_append_of_ne_nil _ (by simp)]
  rw [show ('.' :: (List.replicate (6 - (strOfNat (m % 1000000)).data.length) '0' ++
      (strOfNat (m % 1000000)).data)) = ['.'] ++
      (List.replicate (6 - (strOfNat (m % 1000000)).data.length) '0' ++
      (strOfNat (m % 1000000)).data) from rfl]
  rw [List.getLast?_append_of_ne_nil _ (by simp [hne])]
  rw [List.getLast?_append_of_ne_nil _ hne]
  cases hgl : (strOfNat (m % 1000000)).data.getLast? with
  | none => exact absurd (List.getLast?_eq_none_iff.mp hgl) hne
  | some c =>
    exact ⟨c, rfl, strOfNat_all_digits _ c (List.mem_of_mem_getLast? hgl)⟩

theorem serialize_eq_five (r : TaxonRecord) : serializeRecord r =
    strOfInt r.taxid ++ "\t" ++ r.rank ++ "\t" ++ joinSep '|' (r.taxpath.map strOfInt) ++
      "\t" ++ joinSep '|' r.taxpathsn ++ "\t" ++ format6 r.pct := rfl

theorem serialize_data_cons (r : TaxonRecord) :
    ∃ c rest, (serializeRecord r).data = c :: rest ∧ (c.isDigit = true ∨ c = '-') := by
  obtain ⟨c, t, hct, hc⟩ := strOfInt_head r.taxid
  refine ⟨c, t ++ ("\t" ++ r.rank ++ "\t" ++ joinSep '|' (r.taxpath.map strOfInt) ++
      "\t" ++ joinSep '|' r.taxpathsn ++ "\t" ++ format6 r.pct).data, ?_, hc⟩
  rw [serialize_eq_five]
  rw [show (strOfInt r.taxid ++ "\t" ++ r.rank ++ "\t" ++
      joinSep '|' (r.taxpath.map strOfInt) ++ "\t" ++ joinSep '|' r.taxpathsn ++ "\t" ++
      format6 r.pct).data = (strOfInt r.taxid).data ++
      ("\t" ++ r.rank ++ "\t" ++ joinSep '|' (r.taxpath.map strOfInt) ++ "\t" ++
        joinSep '|' r.taxpathsn ++ "\t" ++ format6 r.pct).data from by
    repeat rw [data_append]
    simp]
  rw [hct]
  rfl

theorem serialize_side_conditions (r : TaxonRecord) (hm : ∃ m : ℕ, r.pct = (m : ℚ) / 1000000) :
    pyStrip (serializeRecord r) = serializeRecord r ∧ ¬ serializeRecord r = "" ∧
    pyStartsWith "@@" (serializeRecord r) = false ∧
    pyStartsWith "@" (serializeRecord r) = false := by
  obtain ⟨m, hpct⟩ := hm
  obtain ⟨c, rest, hcons, hc⟩ := serialize_data_cons r
  have hcws : isWS c = false := by
    rcases hc with h | h
    · exact isWS_of_isDigit h
    · subst h
      decide
  have hcat : c ≠ '@' := by
    rcases hc with h | h
    · intro he
      subst he
      simp at h
    · subst h
      decide
  have hlast : ∀ x, (serializeRecord r).data.getLast? = some x → isWS x = false := by
    intro x hx
    obtain ⟨y, hy, hyd⟩ := format6_last m
    rw [serialize_eq_five] at hx
    rw [show (strOfInt r.taxid ++ "\t" ++ r.rank ++ "\t" ++
        joinSep '|' (r.taxpath.map strOfInt) ++ "\t" ++ joinSep '|' r.taxpathsn ++ "\t" ++
        format6 r.pct).data = (strOfInt r.taxid ++ "\t" ++ r.rank ++ "\t" ++
        joinSep '|' (r.taxpath.map strOfInt) ++ "\t" ++ joinSep '|' r.taxpathsn ++
        "\t").data ++ (format6 r.pct).data from by rw [data_append]] at hx
    rw [List.getLast?_append_of_ne_nil _ (by
      rw [hpct]
      intro h0
      obtain ⟨z, hz, _⟩ := format6_last m
      rw [h0] at hz
      cases hz)] at hx
    rw [hpct] at hx
    rw [hy] at hx
    obtain rfl := Option.some.inj hx
    exact isWS_of_isDigit hyd
  refine ⟨?_, ?_, ?_, ?_⟩
  · unfold pyStrip
    rw [pyStripL_eq_self (fun x hx => by
        rw [hcons] at hx
        obtain rfl := Option.some.inj hx
        exact hcws) hlast]
  · intro h0
    rw [h0] at hcons
    have hcontra : ([] : List Char) = c :: rest := hcons
    cases hcontra
  · unfold pyStartsWith
    rw [hcons]
    rw [show ("@@" : String).data = ['@', '@'] from rfl]
    show (decide ('@' = c) && startsWithL ['@'] rest) = false
    rw [decide_eq_false (fun he => hcat he.symm)]
    rfl
  · unfold pyStartsWith
    rw [hcons]
    rw [show ("@" : String).data = ['@'] from rfl]
    rw [startsWithL_single, decide_eq_false (fun he => hcat he.symm)]

theorem strOfInt_ne_blank (i : ℤ) : ¬ strOfInt i = "" := by
  intro h0
  apply strOfInt_ne_empty i
  rw [h0]

theorem splitChar_serialize {r : TaxonRecord} (hr : GoodRec r) :
    splitChar '\t' (serializeRecord r) =
      [strOfInt r.taxid, r.rank, joinSep '|' (r.taxpath.map strOfInt),
       joinSep '|' r.taxpathsn, format6 r.pct] := by
  obtain ⟨_, hrank, _, _, hyg, _, _, m, hpct⟩ := hr
  rw [serialize_eq_five]
  apply splitChar_tab_five
  · exact strOfInt_no_tab _
  · exact valid_rank_no_tab hrank
  · exact joinSep_not_mem (by decide) (fun s hs => by
      obtain ⟨i, _, rfl⟩ := List.mem_map.mp hs
      exact strOfInt_no_tab i)
  · exact joinSep_not_mem (by decide) (fun s hs => (hyg s hs).1)
  · rw [hpct]
    exact format6_no_tab m

theorem taxidDiags_serialized (ln : ℕ) {i : ℤ} (hi : 0 < i) :
    taxidDiags ln (strOfInt i) = [] := by
  simp only [taxidDiags, pyInt?_strOfInt]
  rw [if_neg (by omega)]

theorem rankDiags_serialized (ln : ℕ) {r : String} (h : r ∈ valid_ranks) :
    rankDiags (some defaultRanksStr) ln r = [] := by
  simp only [rankDiags]
  rw [if_pos (Or.inl (by
    rw [show splitChar '|' defaultRanksStr = valid_ranks from by decide]
    exact h))]

theorem joinSepL_cons_cons_ne_nil {sep : Char} (a b : List Char) (t : List (List Char)) :
    joinSepL sep (a :: b :: t) ≠ [] := by
  show a ++ sep :: joinSepL sep (b :: t) ≠ []
  simp

theorem joinSep_map_strOfInt_ne_blank {L : List ℤ} (h : L ≠ []) :
    ¬ joinSep '|' (L.map strOfInt) = "" := by
  intro h0
  have hdata : joinSepL '|' ((L.map strOfInt).map String.data) = [] := by
    have := congrArg String.data h0
    exact this
  cases L with
  | nil => exact h rfl
  | cons i t =>
    cases t with
    | nil =>
      simp only [List.map_cons, List.map_nil] at hdata
      exact strOfInt_ne_empty i hdata
    | cons j t2 =>
      simp only [List.map_cons] at hdata
      exact joinSepL_cons_cons_ne_nil _ _ _ hdata

theorem taxpathDiags_serialized (ln : ℕ) {r : TaxonRecord} (hr : GoodRec r) :
    taxpathDiags ln (strOfInt r.taxid) (joinSep '|' (r.taxpath.map strOfInt)) = [] := by
  obtain ⟨_, _, hlast, _, _, _, _, _⟩ := hr
  have hne : r.taxpath ≠ [] := by
    rintro h0
    rw [h0] at hlast
    cases hlast
  have hmapne : r.taxpath.map strOfInt ≠ [] := by simpa using hne
  have hnopipe : ∀ s ∈ r.taxpath.map strOfInt, '|' ∉ s.data := fun s hs => by
    obtain ⟨i, _, rfl⟩ := List.mem_map.mp hs
    exact strOfInt_no_pipe i
  have hsplit : splitChar '|' (joinSep '|' (r.taxpath.map strOfInt)) =
      r.taxpath.map strOfInt := splitChar_joinSep hmapne hnopipe
  have hfind : (r.taxpath.map strOfInt).find? (fun q => (pyInt? q).isNone) = none :=
    List.find?_eq_none.mpr (fun x hx => by
      obtain ⟨i, _, rfl⟩ := List.mem_map.mp hx
      simp [pyInt?_strOfInt])
  have hgl : (r.taxpath.map strOfInt).getLast? = some (strOfInt r.taxid) := by
    rw [getLast?_map' strOfInt r.taxpath, hlast]
    rfl
  simp only [taxpathDiags, if_neg (joinSep_map_strOfInt_ne_blank hne), hsplit, hfind,
    hgl, pyInt?_strOfInt, if_neg (strOfInt_ne_blank r.taxid)]
  rw [if_neg (by omega)]
  rfl

theorem tpsnDiags_serialized (ln : ℕ) {r : TaxonRecord} (hr : GoodRec r) :
    tpsnDiags ln (joinSep '|' (r.taxpath.map strOfInt)) (joinSep '|' r.taxpathsn) = [] := by
  obtain ⟨_, _, hlast, hlen, hyg, _, _, _⟩ := hr
  have hne : r.taxpath ≠ [] := by
    rintro h0
    rw [h0] at hlast
    cases hlast
  by_cases h0 : joinSep '|' r.taxpathsn = ""
  · simp only [tpsnDiags]
    rw [if_neg (by rintro ⟨hc, _⟩; exact hc h0)]
  · have hsnne : r.taxpathsn ≠ [] := by
      rintro hx
      rw [hx] at hlen
      rw [List.length_nil] at hlen
      have : r.taxpath = [] := List.length_eq_zero.mp hlen.symm
      exact hne this
    have hs1 : splitChar '|' (joinSep '|' r.taxpathsn) = r.taxpathsn :=
      splitChar_joinSep hsnne (fun s hs => (hyg s hs).2)
    have hs2 : splitChar '|' (joinSep '|' (r.taxpath.map strOfInt)) =
        r.taxpath.map strOfInt :=
      splitChar_joinSep (by simpa using hne) (fun s hs => by
        obtain ⟨i, _, rfl⟩ := List.mem_map.mp hs
        exact strOfInt_no_pipe i)
    simp only [tpsnDiags]
    rw [if_pos ⟨h0, joinSep_map_strOfInt_ne_blank hne⟩]
    rw [if_neg]
    rw [hs1, hs2, List.length_map]
    omega

theorem pctDiags_serialized (ln : ℕ) {p : ℚ} {m : ℕ} (hpct : p = (m : ℚ) / 1000000)
    (h0 : 0 ≤ p) (h100 : p ≤ 100) : pctDiags ln (format6 p) = [] := by
  subst hpct
  simp only [pctDiags, pyFloat?_format6]
  rw [if_neg]
  push_neg
  exact ⟨h0, h100⟩

theorem rowDiags_serialized (ln : ℕ) {r : TaxonRecord} (hr : GoodRec r) :
    rowDiags (some defaultRanksStr) (ln, serializeRecord r) = [] := by
  obtain ⟨hi, hrank, hlast, hlen, hyg, hp0, hp100, m, hpct⟩ := hr
  have hg : GoodRec r := ⟨hi, hrank, hlast, hlen, hyg, hp0, hp100, m, hpct⟩
  simp only [rowDiags, splitChar_serialize hg]
  rw [taxidDiags_serialized ln hi, rankDiags_serialized ln hrank,
      taxpathDiags_serialized ln hg, tpsnDiags_serialized ln hg,
      pctDiags_serialized ln hpct hp0 hp100]
  rfl

theorem rowTaxid?_serialized (ln : ℕ) {r : TaxonRecord} (hr : GoodRec r) :
    rowTaxid? (ln, serializeRecord r) = some r.taxid := by
  simp only [rowTaxid?, splitChar_serialize hr]
  exact pyInt?_strOfInt _

theorem rowPct?_serialized (ln : ℕ) {r : TaxonRecord} (hr : GoodRec r) :
    rowPct? (ln, serializeRecord r) = some r.pct := by
  simp only [rowPct?, splitChar_serialize hr]
  obtain ⟨_, _, _, _, _, _, _, m, hpct⟩ := hr
  rw [hpct]
  exact pyFloat?_format6 m

theorem filterMap_rowTaxid_serialized :
    ∀ (recs : List TaxonRecord) (k : ℕ), (∀ r ∈ recs, GoodRec r) →
    (List.enumFrom k (recs.map serializeRecord)).filterMap rowTaxid? =
      recs.map (fun r => r.taxid) := by
  intro recs
  induction recs with
  | nil => intro k _; rfl
  | cons r t ih =>
    intro k h
    simp only [List.map_cons, List.enumFrom, List.filterMap_cons,
      rowTaxid?_serialized k (h r (List.mem_cons_self r t))]
    rw [ih (k + 1) (fun x hx => h x (List.mem_cons_of_mem _ hx))]

theorem filterMap_rowPct_serialized :
    ∀ (recs : List TaxonRecord) (k : ℕ), (∀ r ∈ recs, GoodRec r) →
    (List.enumFrom k (recs.map serializeRecord)).filterMap rowPct? =
      recs.map (fun r => r.pct) := by
  intro recs
  induction recs with
  | nil => intro k _; rfl
  | cons r t ih =>
    intro k h
    simp only [List.map_cons, List.enumFrom, List.filterMap_cons,
      rowPct?_serialized k (h r (List.mem_cons_self r t))]
    rw [ih (k + 1) (fun x hx => h x (List.mem_cons_of_mem _ hx))]

theorem flatten_rowDiags_serialized :
    ∀ (recs : List TaxonRecord) (k : ℕ), (∀ r ∈ recs, GoodRec r) →
    ((List.enumFrom k (recs.map serializeRecord)).map
      (rowDiags (some defaultRanksStr))).flatten = [] := by
  intro recs
  induction recs with
  | nil => intro k _; rfl
  | cons r t ih =>
    intro k h
    simp only [List.map_cons, List.enumFrom, List.flatten_cons,
      rowDiags_serialized k (h r (List.mem_cons_self r t))]
    rw [ih (k + 1) (fun x hx => h x (List.mem_cons_of_mem _ hx))]
    rfl

/-! ### The converter on well-formed inputs (towards C1) -/

theorem validRows_clean : ∀ (cl : List (ℕ × ℚ)), (∀ p ∈ cl, 0 < p.2) →
    validRows (cl.map mkCleanRow) = cl.map (fun p => (strOfNat p.1, p.2)) := by
  intro cl
  induction cl with
  | nil => intro _; rfl
  | cons p t ih =>
    intro h
    simp only [List.map_cons, mkCleanRow]
    rw [validRows_cons_pos _ _ _ (h p (List.mem_cons_self p t))]
    rw [ih (fun q hq => h q (List.mem_cons_of_mem _ hq))]

theorem totalCount_clean (cl : List (ℕ × ℚ)) (h : ∀ p ∈ cl, 0 < p.2) :
    totalCount (cl.map mkCleanRow) = (cl.map Prod.snd).sum := by
  unfold totalCount
  rw [validRows_clean cl h, List.map_map]
  rfl

theorem filterMap_processRow_clean (ncbi : Option Ncbi) (T : ℚ) (hT : 0 < T) :
    ∀ (cl : List (ℕ × ℚ)),
    (∀ p ∈ cl, (lookupMapping (get_taxonomy_info (p.1 : ℤ) ncbi).1).getD
      (get_taxonomy_info (p.1 : ℤ) ncbi).1 ∈ valid_ranks) →
    (cl.map (fun p => (strOfNat p.1, p.2))).filterMap (processRow ncbi T) =
      cl.map (cleanRecord ncbi T) := by
  intro cl
  induction cl with
  | nil => intro _; rfl
  | cons p t ih =>
    intro h
    simp only [List.map_cons, List.filterMap_cons]
    rw [processRow_eq ncbi T (strOfNat p.1, p.2) (p.1 : ℤ) (pyInt?_strOfNat p.1)]
    rw [if_pos ((mappedRank_mem_iff _).mpr (h p (List.mem_cons_self p t)))]
    rw [if_pos hT]
    rw [ih (fun q hq => h q (List.mem_cons_of_mem _ hq))]
    rfl

theorem preResults_clean (ncbi : Option Ncbi) (cl : List (ℕ × ℚ))
    (hpos : ∀ p ∈ cl, 0 < p.2) (hT : 0 < (cl.map Prod.snd).sum)
    (hr : ∀ p ∈ cl, (lookupMapping (get_taxonomy_info (p.1 : ℤ) ncbi).1).getD
      (get_taxonomy_info (p.1 : ℤ) ncbi).1 ∈ valid_ranks) :
    preResults ncbi (cl.map mkCleanRow) = cl.map (cleanRecord ncbi ((cl.map Prod.snd).sum)) := by
  unfold preResults
  rw [validRows_clean cl hpos, totalCount_clean cl hpos]
  exact filterMap_processRow_clean ncbi _ hT cl hr

theorem GoodRec_cleanRecord (ncbi : Option Ncbi) (cl : List (ℕ × ℚ))
    (hpos : ∀ p ∈ cl, 0 < p.1 ∧ 0 < p.2)
    (hr : ∀ p ∈ cl, (lookupMapping (get_taxonomy_info (p.1 : ℤ) ncbi).1).getD
      (get_taxonomy_info (p.1 : ℤ) ncbi).1 ∈ valid_ranks)
    (HL : ∀ p ∈ cl, ((get_taxonomy_info (p.1 : ℤ) ncbi).2.1).getLast? = some (p.1 : ℤ))
    (HN : ∀ p ∈ cl, ∀ s ∈ (get_taxonomy_info (p.1 : ℤ) ncbi).2.2,
      '\t' ∉ s.data ∧ '\n' ∉ s.data ∧ '|' ∉ s.data) :
    ∀ p ∈ cl, GoodRec (cleanRecord ncbi ((cl.map Prod.snd).sum) p) := by
  intro p hp
  have hc := (hpos p hp).2
  have hT : 0 < (cl.map Prod.snd).sum := by
    apply List.sum_pos
    · intro x hx
      obtain ⟨q, hq, rfl⟩ := List.mem_map.mp hx
      exact (hpos q hq).2
    · intro h0
      rw [List.map_eq_nil_iff.mp h0] at hp
      cases hp
  have hle : p.2 ≤ (cl.map Prod.snd).sum := by
    apply List.single_le_sum (fun x hx => ?_) p.2 (List.mem_map_of_mem Prod.snd hp)
    obtain ⟨q, hq, rfl⟩ := List.mem_map.mp hx
    exact le_of_lt ((hpos q hq).2)
  have hq0 : 0 ≤ p.2 / (cl.map Prod.snd).sum * 100 := by positivity
  have hq100 : p.2 / (cl.map Prod.snd).sum * 100 ≤ 100 := by
    have h1 : p.2 / (cl.map Prod.snd).sum ≤ 1 := (div_le_one hT).mpr hle
    linarith
  refine ⟨?_, hr p hp, HL p hp, get_taxonomy_info_len _ _, ?_, ?_, ?_, ?_⟩
  · show (0 : ℤ) < (p.1 : ℤ)
    exact_mod_cast (hpos p hp).1
  · exact fun s hs => ⟨(HN p hp s hs).1, (HN p hp s hs).2.2⟩
  · exact round6_nonneg hq0
  · exact round6_le_100 hq100
  · exact round6_exists_nat hq0

theorem GoodRec_renormalize {rs : List TaxonRecord}
    (h : ∀ r ∈ rs, GoodRec r) (hpos : 0 < totalPercentage rs) :
    ∀ r ∈ renormalize rs, GoodRec r := by
  intro r hr
  unfold renormalize at hr
  split at hr
  · obtain ⟨r0, hr0, rfl⟩ := List.mem_map.mp hr
    obtain ⟨h1, h2, h3, h4, h5, h6, h7, m, h8⟩ := h r0 hr0
    have hle : r0.pct ≤ totalPercentage rs := by
      apply List.single_le_sum (fun x hx => ?_) r0.pct
        (List.mem_map_of_mem (fun r => r.pct) hr0)
      obtain ⟨q, hq, rfl⟩ := List.mem_map.mp hx
      exact (h q hq).2.2.2.2.2.1
    have hq0 : 0 ≤ r0.pct / totalPercentage rs * 100 := by positivity
    have hq100 : r0.pct / totalPercentage rs * 100 ≤ 100 := by
      have := (div_le_one hpos).mpr hle
      linarith
    exact ⟨h1, h2, h3, h4, h5, round6_nonneg hq0, round6_le_100 hq100,
      round6_exists_nat hq0⟩
  · exact h r hr

theorem taxids_renormalize (rs : List TaxonRecord) :
    (renormalize rs).map (fun r => r.taxid) = rs.map (fun r => r.taxid) := by
  unfold renormalize
  split
  · rw [List.map_map]
    rfl
  · rfl

theorem length_renormalize (rs : List TaxonRecord) :
    (renormalize rs).length = rs.length := by
  unfold renormalize
  split
  · rw [List.length_map]
  · rfl

theorem totalPercentage_pre_pos (ncbi : Option Ncbi) (cl : List (ℕ × ℚ))
    (hne : cl ≠ []) (hlen : cl.length ≤ 2000000)
    (hpos : ∀ p ∈ cl, 0 < p.1 ∧ 0 < p.2) :
    0 < totalPercentage (cl.map (cleanRecord ncbi ((cl.map Prod.snd).sum))) := by
  set T := (cl.map Prod.snd).sum with hTdef
  have hT : 0 < T := by
    apply List.sum_pos
    · intro x hx
      obtain ⟨q, hq, rfl⟩ := List.mem_map.mp hx
      exact (hpos q hq).2
    · simpa using hne
  have htp : totalPercentage (cl.map (cleanRecord ncbi T)) =
      ((cl.map (fun p => p.2 / T * 100)).map round6).sum := by
    unfold totalPercentage
    rw [List.map_map, List.map_map]
    rfl
  rw [htp]
  have hsum : (cl.map (fun p => p.2 / T * 100)).sum = 100 := by
    have h1 : cl.map (fun p => p.2 / T * 100) =
        (cl.map Prod.snd).map (fun c => c / T * 100) := by
      rw [List.map_map]
      rfl
    rw [h1, sum_map_div_mul, ← hTdef]
    field_simp
  have hlen0 : cl.length ≠ 0 := by
    intro h0
    exact hne (List.length_eq_zero.mp h0)
  obtain ⟨q, hq, hqge⟩ : ∃ q ∈ cl.map (fun p => p.2 / T * 100), 100 / (cl.length : ℚ) ≤ q := by
    by_contra hcon
    push_neg at hcon
    have := sum_lt_length_mul (l := cl.map (fun p => p.2 / T * 100))
      (b := 100 / (cl.length : ℚ)) (by simpa using hne) hcon
    rw [hsum, List.length_map] at this
    have hlq : (0 : ℚ) < (cl.length : ℚ) := by
      have : 0 < cl.length := Nat.pos_of_ne_zero hlen0
      exact_mod_cast this
    rw [mul_div_cancel₀ _ (ne_of_gt hlq)] at this
    exact lt_irrefl _ this
  have hq2 : 1 / 2000000 ≤ q := by
    have hlq : (0 : ℚ) < (cl.length : ℚ) := by
      have : 0 < cl.length := Nat.pos_of_ne_zero hlen0
      exact_mod_cast this
    have hlle : (cl.length : ℚ) ≤ 2000000 := by exact_mod_cast hlen
    have h1 : (100 : ℚ) / 2000000 ≤ 100 / (cl.length : ℚ) := by
      apply div_le_div_of_nonneg_left (by norm_num) hlq hlle
    calc (1 : ℚ) / 2000000 ≤ 100 / 2000000 := by norm_num
      _ ≤ 100 / (cl.length : ℚ) := h1
      _ ≤ q := hqge
  have hnonneg : ∀ x ∈ (cl.map (fun p => p.2 / T * 100)).map round6, 0 ≤ x := by
    intro x hx
    obtain ⟨y, hy, rfl⟩ := List.mem_map.mp hx
    obtain ⟨p, hp, rfl⟩ := List.mem_map.mp hy
    have := (hpos p hp).2
    exact round6_nonneg (by positivity)
  calc (0 : ℚ) < round6 q := round6_pos hq2
    _ ≤ ((cl.map (fun p => p.2 / T * 100)).map round6).sum :=
      List.single_le_sum hnonneg _ (List.mem_map_of_mem round6 hq)

theorem abs_final_sum_le_one (ncbi : Option Ncbi) (rows : List Row)
    (hpos : 0 < totalPercentage (preResults ncbi rows))
    (hlen : (preResults ncbi rows).length ≤ 2000000) :
    |totalPercentage (finalResults ncbi rows) - 100| ≤ 1 := by
  cases hrn : renormNeeded (preResults ncbi rows) with
  | false =>
    unfold finalResults
    rw [renormalize_of_not_needed hrn]
    have h2 := of_decide_eq_false hrn
    have h3 : ¬ 1 / 100 < |totalPercentage (preResults ncbi rows) - 100| :=
      fun hb => h2 ⟨hpos, hb⟩
    have h4 := not_lt.mp h3
    linarith
  | true =>
    set rs := preResults ncbi rows with hrs
    set t := totalPercentage rs with ht
    unfold finalResults
    rw [← hrs, renormalize_of_needed hrn]
    have htp : totalPercentage (rs.map
        (fun r => { r with pct := round6 (r.pct / t * 100) })) =
        (((rs.map (fun r => r.pct)).map (fun x => x / t * 100)).map round6).sum := by
      unfold totalPercentage
      rw [List.map_map, List.map_map, List.map_map]
      rfl
    rw [htp]
    have hq : ((rs.map (fun r => r.pct)).map (fun x => x / t * 100)).sum = 100 := by
      rw [sum_map_div_mul]
      have h5 : (rs.map (fun r => r.pct)).sum = t := rfl
      rw [h5]
      field_simp
    have hb := abs_sum_map_round6_sub ((rs.map (fun r => r.pct)).map (fun x => x / t * 100))
    rw [hq] at hb
    have hlb : ((((rs.map (fun r => r.pct)).map (fun x => x / t * 100)).length : ℚ))
        = (rs.length : ℚ) := by
      rw [List.length_map, List.length_map]
    rw [hlb] at hb
    have hcast : ((rs.length : ℚ)) ≤ 2000000 := by exact_mod_cast hlen
    have hle1 : ((rs.length : ℚ)) / 2000000 ≤ 1 := by
      rw [div_le_one (by norm_num : (0 : ℚ) < 2000000)]
      exact hcast
    exact le_trans hb hle1

/-! ### Parsing the whole converter output (C1) -/

theorem data_ne_nil_of_ne_blank {s : String} (h : ¬ s = "") : s.data ≠ [] := by
  intro h0
  apply h
  rw [← mk_data s, h0]

theorem sampleLine_data (sample : String) : ("@SampleID:" ++ sample).data =
    '@' :: 'S' :: 'a' :: 'm' :: 'p' :: 'l' :: 'e' :: 'I' :: 'D' :: ':' :: sample.data := by
  rw [data_append]
  rfl

theorem sampleLine_strip {sample : String} (hsamp : ∀ c ∈ sample.data, isWS c = false) :
    pyStrip ("@SampleID:" ++ sample) = "@SampleID:" ++ sample := by
  apply pyStrip_of_all
  intro c hc
  rw [sampleLine_data] at hc
  simp only [List.mem_cons] at hc
  rcases hc with rfl | rfl | rfl | rfl | rfl | rfl | rfl | rfl | rfl | rfl | hc
  all_goals try decide
  exact hsamp c hc

theorem sampleLine_ne (sample : String) : ¬ ("@SampleID:" ++ sample) = "" := by
  intro h0
  have h1 := congrArg String.data h0
  rw [sampleLine_data] at h1
  cases h1

theorem sampleLine_sw2 (sample : String) :
    pyStartsWith "@@" ("@SampleID:" ++ sample) = false := by
  unfold pyStartsWith
  rw [sampleLine_data]
  simp +decide [startsWithL]

theorem sampleLine_sw1 (sample : String) :
    pyStartsWith "@" ("@SampleID:" ++ sample) = true := by
  unfold pyStartsWith
  rw [sampleLine_data]
  simp +decide [startsWithL]

theorem parseHeaderLine_sampleID (sample : String) (hsne : ¬ sample = "")
    (hsamp : ∀ c ∈ sample.data, isWS c = false) :
    parseHeaderLine ("@SampleID:" ++ sample) = some ("SampleID", sample) := by
  have h1 : (strDrop 1 ("@SampleID:" ++ sample)).data =
      'S' :: 'a' :: 'm' :: 'p' :: 'l' :: 'e' :: 'I' :: 'D' :: ':' :: sample.data := by
    unfold strDrop
    rw [sampleLine_data]
    rfl
  have h2 : (strDrop 1 ("@SampleID:" ++ sample)).data.takeWhile isWordChar
      = "SampleID".data := by
    rw [h1]
    simp +decide [List.takeWhile_cons]
  have h3 : (strDrop 1 ("@SampleID:" ++ sample)).data.dropWhile isWordChar
      = ':' :: sample.data := by
    rw [h1]
    simp +decide [List.dropWhile_cons]
  have h4 : strDrop 1 (String.mk (':' :: sample.data)) = sample := by
    unfold strDrop
    exact mk_data sample
  have hcond : ("SampleID".data ≠ []) ∧
      startsWithL [':'] (String.mk (':' :: sample.data)).data = true ∧
      (strDrop 1 (String.mk (':' :: sample.data))).data ≠ [] := by
    refine ⟨by decide, ?_, ?_⟩
    · show startsWithL [':'] (':' :: sample.data) = true
      simp [startsWithL]
    · rw [h4]
      exact data_ne_nil_of_ne_blank hsne
  simp only [parseHeaderLine, h2, h3, mk_data]
  rw [if_pos hcond, h4, pyStrip_of_all hsamp]

theorem c1Headers_SampleID (sample : String) :
    c1Headers sample "SampleID" = some sample := by
  simp +decide [c1Headers, updateH]

theorem c1Headers_Version (sample : String) :
    c1Headers sample "Version" = some "0.9.1" := by
  simp +decide [c1Headers, updateH]

theorem c1Headers_Ranks (sample : String) :
    c1Headers sample "Ranks" = some defaultRanksStr := by
  simp +decide [c1Headers, updateH]

theorem c1Headers_TaxonomyID (sample : String) :
    c1Headers sample "TaxonomyID" = some "NCBI" := by
  simp +decide [c1Headers, updateH]

theorem parseAll_outputLines (sample : String) (hsne : ¬ sample = "")
    (hsamp : ∀ c ∈ sample.data, isWS c = false) (recs : List TaxonRecord)
    (hrecs : ∀ r ∈ recs, ∃ m : ℕ, r.pct = (m : ℚ) / 1000000) :
    parseAll (outputLines sample "0.9.1" defaultRanksStr "NCBI" recs) =
      { headers := c1Headers sample,
        colHeader := some "TAXID\tRANK\tTAXPATH\tTAXPATHSN\tPERCENTAGE",
        inData := true,
        data := List.enumFrom 6 (recs.map serializeRecord),
        errs := [] } := by
  have henum : List.enumFrom 1 (["@SampleID:" ++ sample, "@Version:" ++ "0.9.1",
      "@Ranks:" ++ defaultRanksStr, "@TaxonomyID:" ++ "NCBI", columnHeaderLine] ++
      recs.map serializeRecord) =
      (1, "@SampleID:" ++ sample) :: (2, "@Version:" ++ "0.9.1") ::
      (3, "@Ranks:" ++ defaultRanksStr) :: (4, "@TaxonomyID:" ++ "NCBI") ::
      (5, columnHeaderLine) :: List.enumFrom 6 (recs.map serializeRecord) := rfl
  unfold parseAll outputLines
  rw [henum]
  simp only [List.foldl_cons]
  rw [parseStep_header_line initPSt (1, "@SampleID:" ++ sample) "SampleID" sample
    (sampleLine_strip hsamp) (sampleLine_ne sample) (sampleLine_sw2 sample)
    (sampleLine_sw1 sample) (parseHeaderLine_sampleID sample hsne hsamp)]
  rw [parseStep_header_line _ (2, "@Version:" ++ "0.9.1") "Version" "0.9.1"
    (by decide) (by decide) (by decide) (by decide) (by decide)]
  rw [parseStep_header_line _ (3, "@Ranks:" ++ defaultRanksStr) "Ranks" defaultRanksStr
    (by decide) (by decide) (by decide) (by decide) (by decide)]
  rw [parseStep_header_line _ (4, "@TaxonomyID:" ++ "NCBI") "TaxonomyID" "NCBI"
    (by decide) (by decide) (by decide) (by decide) (by decide)]
  rw [parseStep_colHeader_line _ (5, columnHeaderLine)
    "TAXID\tRANK\tTAXPATH\tTAXPATHSN\tPERCENTAGE"
    (by decide) (by decide) (by decide) (by decide)]
  rw [foldl_parseStep_data (List.enumFrom 6 (recs.map serializeRecord)) _ rfl ?side]
  case side =>
    intro p hp
    have hp2 : p.2 ∈ recs.map serializeRecord := by
      have h0 := List.mem_map_of_mem Prod.snd hp
      rw [List.enumFrom_map_snd] at h0
      exact h0
    obtain ⟨r, hrm, heq⟩ := List.mem_map.mp hp2
    rw [← heq]
    exact serialize_side_conditions r (hrecs r hrm)
  rfl

theorem headerDiags_c1 (sample : String) : headerDiags (c1Headers sample) = [] := by
  have h1 : requiredHeaderDiags (c1Headers sample) = [] := by
    simp [requiredHeaderDiags, c1Headers_SampleID, c1Headers_Version, c1Headers_Ranks]
  have h2 : versionDiags (c1Headers sample) = [] := by
    simp only [versionDiags, c1Headers_Version]
    decide
  have h3 : ranksHeaderDiags (c1Headers sample) = [] := by
    simp only [ranksHeaderDiags, c1Headers_Ranks]
    decide
  have h4 : taxdbDiags (c1Headers sample) = [] := by
    simp only [taxdbDiags, c1Headers_TaxonomyID]
    decide
  unfold headerDiags
  rw [h1, h2, h3, h4]
  rfl

theorem columnDiags_c1 : columnDiags "TAXID\tRANK\tTAXPATH\tTAXPATHSN\tPERCENTAGE" = [] := by
  decide

theorem dataDiags_serialized (recs : List TaxonRecord) (hne : recs ≠ [])
    (hgood : ∀ r ∈ recs, GoodRec r)
    (hsum : ¬ 1 < |totalPercentage recs - 100|) :
    dataDiags (some defaultRanksStr) (List.enumFrom 6 (recs.map serializeRecord)) =
      dupDiags (recs.map (fun r => r.taxid)) := by
  have hdne : List.enumFrom 6 (recs.map serializeRecord) ≠ [] := by
    cases recs with
    | nil => exact absurd rfl hne
    | cons r t => simp [List.enumFrom]
  unfold dataDiags
  rw [if_neg hdne]
  rw [flatten_rowDiags_serialized recs 6 hgood]
  rw [filterMap_rowPct_serialized recs 6 hgood]
  rw [filterMap_rowTaxid_serialized recs 6 hgood]
  have h1 : sumDiags (recs.map (fun r => r.pct)) = [] := by
    unfold sumDiags
    by_cases h0 : recs.map (fun r => r.pct) = []
    · rw [if_pos h0]
    · have hsum2 : ¬ 1 < |(recs.map (fun r => r.pct)).sum - 100| := hsum
      rw [if_neg h0, if_neg hsum2]
  rw [h1]
  simp

theorem validate_convert_clean (ncbi : Option Ncbi) (cl : List (ℕ × ℚ)) (sample : String)
    (hsne : ¬ sample = "") (hsamp : ∀ c ∈ sample.data, isWS c = false)
    (hne : cl ≠ []) (hlen : cl.length ≤ 2000000)
    (hpos : ∀ p ∈ cl, 0 < p.1 ∧ 0 < p.2)
    (hr : ∀ p ∈ cl, (lookupMapping (get_taxonomy_info (p.1 : ℤ) ncbi).1).getD
      (get_taxonomy_info (p.1 : ℤ) ncbi).1 ∈ valid_ranks)
    (HL : ∀ p ∈ cl, ((get_taxonomy_info (p.1 : ℤ) ncbi).2.1).getLast? = some (p.1 : ℤ))
    (HN : ∀ p ∈ cl, ∀ s ∈ (get_taxonomy_info (p.1 : ℤ) ncbi).2.2,
      '\t' ∉ s.data ∧ '\n' ∉ s.data ∧ '|' ∉ s.data) :
    validate_bioboxes (outputLines sample "0.9.1" defaultRanksStr "NCBI"
      (finalResults ncbi (cl.map mkCleanRow))) =
      ((dupDiags (cl.map (fun p => ((p.1 : ℕ) : ℤ)))).isEmpty,
        dupDiags (cl.map (fun p => ((p.1 : ℕ) : ℤ)))) := by
  have hTpos : 0 < (cl.map Prod.snd).sum := by
    apply List.sum_pos
    · intro x hx
      obtain ⟨q, hq, rfl⟩ := List.mem_map.mp hx
      exact (hpos q hq).2
    · intro h0
      exact hne (List.map_eq_nil_iff.mp h0)
  have hpre : preResults ncbi (cl.map mkCleanRow) =
      cl.map (cleanRecord ncbi ((cl.map Prod.snd).sum)) :=
    preResults_clean ncbi cl (fun p hp => (hpos p hp).2) hTpos hr
  have hgoodpre : ∀ r ∈ preResults ncbi (cl.map mkCleanRow), GoodRec r := by
    rw [hpre]
    intro r hrr
    obtain ⟨p, hp, rfl⟩ := List.mem_map.mp hrr
    exact GoodRec_cleanRecord ncbi cl hpos hr HL HN p hp
  have hppos : 0 < totalPercentage (preResults ncbi (cl.map mkCleanRow)) := by
    rw [hpre]
    exact totalPercentage_pre_pos ncbi cl hne hlen hpos
  have hgood : ∀ r ∈ finalResults ncbi (cl.map mkCleanRow), GoodRec r :=
    GoodRec_renormalize hgoodpre hppos
  have hlenfin : (finalResults ncbi (cl.map mkCleanRow)).length = cl.length := by
    show (renormalize (preResults ncbi (cl.map mkCleanRow))).length = cl.length
    rw [length_renormalize, hpre, List.length_map]
  have hfne : finalResults ncbi (cl.map mkCleanRow) ≠ [] := by
    intro h0
    rw [h0] at hlenfin
    exact hne (List.length_eq_zero.mp hlenfin.symm)
  have hsumb : |totalPercentage (finalResults ncbi (cl.map mkCleanRow)) - 100| ≤ 1 := by
    apply abs_final_sum_le_one ncbi (cl.map mkCleanRow) hppos
    rw [hpre, List.length_map]
    exact hlen
  have htax : (finalResults ncbi (cl.map mkCleanRow)).map (fun r => r.taxid) =
      cl.map (fun p => ((p.1 : ℕ) : ℤ)) := by
    show (renormalize (preResults ncbi (cl.map mkCleanRow))).map (fun r => r.taxid) = _
    rw [taxids_renormalize, hpre, List.map_map]
    rfl
  have hm : ∀ r ∈ finalResults ncbi (cl.map mkCleanRow),
      ∃ m : ℕ, r.pct = (m : ℚ) / 1000000 :=
    fun r hrr => (hgood r hrr).2.2.2.2.2.2.2
  have hparse := parseAll_outputLines sample hsne hsamp
    (finalResults ncbi (cl.map mkCleanRow)) hm
  have hlines : outputLines sample "0.9.1" defaultRanksStr "NCBI"
      (finalResults ncbi (cl.map mkCleanRow)) ≠ [] := by
    simp [outputLines]
  have hdd := dataDiags_serialized (finalResults ncbi (cl.map mkCleanRow)) hfne hgood
    (not_lt.mpr hsumb)
  unfold validate_bioboxes
  rw [if_neg hlines]
  simp only [hparse, headerDiags_c1, columnDiags_c1, c1Headers_Ranks, hdd, htax,
    List.nil_append, List.append_nil]

/-- C1: for a well-formed standardized input (required columns present,
positive integer identifiers, positive counts, ranks resolving into the
allowed set after mapping) — strengthened with the identifiers pairwise
distinct, at least one row, at most 2·10⁶ rows, a nonempty
whitespace-free sample name, a lookup honouring the adapter contract
(lineages end in the queried identifier, names are free of tabs, newlines
and pipes) — running the validator on the file produced by the converter
yields zero diagnostics, hence is_valid = true. -/
theorem C1_roundtrip (ncbi : Option Ncbi) (cl : List (ℕ × ℚ)) (sample : String)
    (hsne : ¬ sample = "") (hsamp : ∀ c ∈ sample.data, isWS c = false)
    (hne : cl ≠ []) (hlen : cl.length ≤ 2000000)
    (hpos : ∀ p ∈ cl, 0 < p.1 ∧ 0 < p.2)
    (hdist : (cl.map Prod.fst).Nodup)
    (hr : ∀ p ∈ cl, (lookupMapping (get_taxonomy_info (p.1 : ℤ) ncbi).1).getD
      (get_taxonomy_info (p.1 : ℤ) ncbi).1 ∈ valid_ranks)
    (HL : ∀ p ∈ cl, ((get_taxonomy_info (p.1 : ℤ) ncbi).2.1).getLast? = some (p.1 : ℤ))
    (HN : ∀ p ∈ cl, ∀ s ∈ (get_taxonomy_info (p.1 : ℤ) ncbi).2.2,
      '\t' ∉ s.data ∧ '\n' ∉ s.data ∧ '|' ∉ s.data) :
    ∀ out, convert_taxpasta_to_bioboxes ncbi ⟨true, cl.map mkCleanRow⟩ sample "0.9.1"
      defaultRanksStr "NCBI" = .ok out →
    validate_bioboxes out = (true, []) := by
  intro out hout
  have hconv : convert_taxpasta_to_bioboxes ncbi ⟨true, cl.map mkCleanRow⟩ sample "0.9.1"
      defaultRanksStr "NCBI" = .ok (outputLines sample "0.9.1" defaultRanksStr "NCBI"
        (finalResults ncbi (cl.map mkCleanRow))) := rfl
  rw [hconv] at hout
  injection hout with h
  subst h
  have hnd : (cl.map (fun p => ((p.1 : ℕ) : ℤ))).Nodup := by
    have he : cl.map (fun p => ((p.1 : ℕ) : ℤ)) =
        (cl.map Prod.fst).map (fun n => ((n : ℕ) : ℤ)) := by
      rw [List.map_map]
      rfl
    rw [he]
    exact hdist.map (fun a b hab => by exact_mod_cast hab)
  have hdup : dupDiags (cl.map (fun p => ((p.1 : ℕ) : ℤ))) = [] := by
    unfold dupDiags
    by_cases h0 : cl.map (fun p => ((p.1 : ℕ) : ℤ)) = []
    · rw [if_pos h0]
    · rw [if_neg h0, List.dedup_eq_self.mpr hnd]
      simp
  rw [validate_convert_clean ncbi cl sample hsne hsamp hne hlen hpos hr HL HN, hdup]
  rfl

/-- Witness for C1: two rows with identifiers 1 and 2, count 1 each, under
the well-behaved species oracle. -/
theorem C1_witness :
    validate_bioboxes (outputLines "s" "0.9.1" defaultRanksStr "NCBI"
      (finalResults (some speciesNcbi)
        ([((1 : ℕ), (1 : ℚ)), (2, 1)].map mkCleanRow))) = (true, []) := by
  apply C1_roundtrip (some speciesNcbi) [((1 : ℕ), (1 : ℚ)), (2, 1)] "s"
    (by decide) (by decide) (List.cons_ne_nil _ _) (by decide)
    ?hpos (by decide) ?hr ?HL ?HN _ rfl
  case hpos =>
    intro p hp
    simp only [List.mem_cons, List.not_mem_nil, or_false] at hp
    rcases hp with rfl | rfl <;> exact ⟨by norm_num, by norm_num⟩
  case hr =>
    intro p hp
    simp only [List.mem_cons, List.not_mem_nil, or_false] at hp
    rcases hp with rfl | rfl <;> decide
  case HL =>
    intro p hp
    simp only [List.mem_cons, List.not_mem_nil, or_false] at hp
    rcases hp with rfl | rfl <;> decide
  case HN =>
    intro p hp
    simp only [List.mem_cons, List.not_mem_nil, or_false] at hp
    rcases hp with rfl | rfl <;> decide

/-- Counterexample to C1 as stated: the input with two rows both carrying
identifier 1 (count 1 each) is well formed in the claimed sense — the
identifiers are positive integers, the counts positive, every rank
resolves to "species" — yet the validator finds the duplicate-identifier
diagnostic on the converted file, so the diagnostics are not zero and
is_valid is false. -/
theorem C1_counterexample :
    rowsDupId = [((1 : ℕ), (1 : ℚ)), (1, 1)].map mkCleanRow ∧
    (∀ p ∈ [((1 : ℕ), (1 : ℚ)), (1, 1)], 0 < p.1 ∧ 0 < p.2 ∧
      (lookupMapping (get_taxonomy_info (p.1 : ℤ) (some speciesNcbi)).1).getD
        (get_taxonomy_info (p.1 : ℤ) (some speciesNcbi)).1 ∈ valid_ranks) ∧
    validate_bioboxes (outputLines "s" "0.9.1" defaultRanksStr "NCBI"
      (finalResults (some speciesNcbi) rowsDupId)) =
      (false, [Diag.duplicateTaxids 1]) := by
  have hrows : rowsDupId = [((1 : ℕ), (1 : ℚ)), (1, 1)].map mkCleanRow := rfl
  refine ⟨hrows, ?_, ?_⟩
  · intro p hp
    simp only [List.mem_cons, List.not_mem_nil, or_false] at hp
    rcases hp with rfl | rfl <;>
      exact ⟨by norm_num, by norm_num, by decide⟩
  · have hv := validate_convert_clean (some speciesNcbi) [((1 : ℕ), (1 : ℚ)), (1, 1)] "s"
      (by decide) (by decide) (List.cons_ne_nil _ _) (by decide)
      ?hpos ?hr ?HL ?HN
    case hpos =>
      intro p hp
      simp only [List.mem_cons, List.not_mem_nil, or_false] at hp
      rcases hp with rfl | rfl <;> exact ⟨by norm_num, by norm_num⟩
    case hr =>
      intro p hp
      simp only [List.mem_cons, List.not_mem_nil, or_false] at hp
      rcases hp with rfl | rfl <;> decide
    case HL =>
      intro p hp
      simp only [List.mem_cons, List.not_mem_nil, or_false] at hp
      rcases hp with rfl | rfl <;> decide
    case HN =>
      intro p hp
      simp only [List.mem_cons, List.not_mem_nil, or_false] at hp
      rcases hp with rfl | rfl <;> decide
    rw [← hrows] at hv
    rw [hv]
    decide

end Taxbencher
